import Mathlib

/-!
Extrusion geometry and safety classification (LineWidth.js)

A shallow embedding of the pure calculation code of
`src/Components/LineWidth/LineWidth.js`.

JavaScript numbers are modelled by an arbitrary linearly ordered field `K`
with a floor function (exact arithmetic): the definitions evaluate on `ℚ`, and
every theorem stated for all such `K` holds in particular over `ℝ`.
`Math.PI` and `Math.sqrt` have no counterpart in a general field and are
passed as the first argument of the two functions that use them; theorems about
those functions instantiate them with `Real.pi` and `Real.sqrt`.
Strings are modelled by `String`. The helper `roundTo` of `util/math` is not in
the source tree and is a parameter of `notes`.

The result of the sweep loop depends on how `i += step` rounds, so the loop is
also modelled with rounded operations (`layerHeightsLoopRounded`); `binary64`
is the rounding of JavaScript numbers, on `ℚ`.
-/

namespace LineWidth

/-! ## Constants -/

/-- The three category names of `SAFETY_DETERMINATIONS`. -/
def SAFETY_DETERMINATIONS.SAFE : String := "safe"

/-- See `SAFETY_DETERMINATIONS.SAFE`. -/
def SAFETY_DETERMINATIONS.WARNING : String := "warning"

/-- See `SAFETY_DETERMINATIONS.SAFE`. -/
def SAFETY_DETERMINATIONS.DANGER : String := "danger"

/-- The object `SAFETY_COLORS`, as its list of own (key, value) entries in
insertion order. -/
def SAFETY_COLORS : List (String × String) :=
  [ (SAFETY_DETERMINATIONS.SAFE, "#0f0"),
    (SAFETY_DETERMINATIONS.WARNING, "#ff0"),
    (SAFETY_DETERMINATIONS.DANGER, "#f00") ]

/-- Property access `SAFETY_COLORS[key]`; `none` stands for `undefined`.
Only own properties are modelled: the keys the program looks up are category
names or strings starting with `#`, never a name of `Object.prototype`. -/
def SAFETY_COLORS.get (key : String) : Option String :=
  SAFETY_COLORS.lookup key

/-- The list `Object.values(SAFETY_COLORS)`. -/
def SAFETY_COLORS.values : List String :=
  SAFETY_COLORS.map Prod.snd

/-- The function `getSafetyColor`: `SAFETY_COLORS[key] || key`. Every value of
`SAFETY_COLORS` is a non-empty string, hence truthy, so `||` falls through to
`key` exactly when the lookup is `undefined`. -/
def getSafetyColor (key : String) : String :=
  match SAFETY_COLORS.get key with
  | some color => color
  | none => key

/-! ## JavaScript primitives -/

/-- `Math.round` on exact numbers: the nearest integer, ties towards `+∞`. -/
def Math.round {K : Type} [LinearOrderedField K] [FloorRing K] (x : K) : Int :=
  ⌊x + 1 / 2⌋

/-- `Number.prototype.toString(16)` on an integer value: an optional minus sign
followed by the lower-case hexadecimal digits of the magnitude. -/
def toString16 (n : Int) : String :=
  if n < 0 then "-" ++ String.mk (Nat.toDigits 16 n.natAbs)
  else String.mk (Nat.toDigits 16 n.natAbs)

/-- The characters of a hexadecimal digit, lower case as JavaScript prints
them. -/
def isHexDigit (c : Char) : Bool :=
  c ∈ ['0', '1', '2', '3', '4', '5', '6', '7', '8', '9', 'a', 'b', 'c', 'd', 'e', 'f']

/-- A string is a colour string when it starts with `#`. -/
def isColorString (s : String) : Prop :=
  s.data.head? = some '#'

instance (s : String) : Decidable (isColorString s) := by
  unfold isColorString; infer_instance

/-- The integer nearest to `x`, a tie going to the even neighbour: the rounding
rule of IEEE 754 arithmetic. -/
def roundHalfEven (x : ℚ) : ℤ :=
  if x - ⌊x⌋ < 1 / 2 then ⌊x⌋
  else if 1 / 2 < x - ⌊x⌋ then ⌊x⌋ + 1
  else if ⌊x⌋ % 2 = 0 then ⌊x⌋
  else ⌊x⌋ + 1

/-- The JavaScript number (IEEE 754 binary64) that an exact result `x` is
rounded to: the nearest multiple of the spacing `2 ^ (e - 52)` of the binade
`2 ^ e ≤ |x| < 2 ^ (e + 1)` (of `2 ^ (-1074)` below `2 ^ (-1022)`), ties to
even. Overflow to `Infinity` is left out: the values of the sweep are far from
`2 ^ 1024`. -/
def binary64 (x : ℚ) : ℚ :=
  if x = 0 then 0
  else
    let e := max (Int.log 2 |x|) (-1022)
    let ulp := (2 : ℚ) ^ (e - 52)
    (roundHalfEven (x / ulp) : ℚ) * ulp

/-! ## Note templates -/

/-- The template literal of the over-spec branch of `notes`; `percent` is the
text that the interpolation inserts. -/
def overSpecNote (percent : String) : String :=
  "Ideal Line Width is " ++ percent ++ "% over Maximum Line Width. Material will tend to collect on the nozzle and be dragged around the print."

/-- The template literal of the severe under-spec branch of `notes`. -/
def severeUnderSpecNote (percent : String) : String :=
  "Ideal Line Width is " ++ percent ++ "% under Minimum Line Width. Print will be extremely weak due to insufficient extruded material required to properly adhere layers together."

/-- The template literal of the mild under-spec branch of `notes`. -/
def mildUnderSpecNote (percent : String) : String :=
  "Ideal Line Width is " ++ percent ++ "% under Minimum Line Width. Print will preserve more detail in the X/Y planes at the cost of strength."

/-- The string of the last branch of `notes`. -/
def withinSpecNote : String :=
  "Ideal Line Width is within spec. Print will have maximum possible strength while preserving features and dimensional accuracy."

/-- A string is an over-spec note when it is the over-spec template around some
inserted text. -/
def isOverSpecNote (s : String) : Prop :=
  ∃ percent : String, s = overSpecNote percent

/-- A string is a severe under-spec note when it is that template around some
inserted text. -/
def isSevereUnderSpecNote (s : String) : Prop :=
  ∃ percent : String, s = severeUnderSpecNote percent

/-- A string is a mild under-spec note when it is that template around some
inserted text. -/
def isMildUnderSpecNote (s : String) : Prop :=
  ∃ percent : String, s = mildUnderSpecNote percent

/-- The last character but one of a string: it tells the four notes apart
(`t`, `r`, `h`, `y`), whatever text was inserted. -/
def noteTag (s : String) : Option Char :=
  s.data.reverse.get? 1

/-! ## Classifiers -/

section Classifiers

variable {K : Type} [LinearOrderedField K]

/-- The function `determineLayerHeightSafety`. -/
def determineLayerHeightSafety (layerHeight nozzleDiameter : K) : String :=
  let ratio := layerHeight / nozzleDiameter
  if ratio ≤ 0.8 then
    SAFETY_DETERMINATIONS.SAFE
  else if ratio ≤ 1.5 then
    SAFETY_DETERMINATIONS.WARNING
  else
    SAFETY_DETERMINATIONS.DANGER

/-- The local constant `minLineWidth` (of `determineLineWidthSafety` and of the
record builder alike). -/
def minLineWidth (layerHeight nozzleDiameter : K) : K :=
  layerHeight + nozzleDiameter

/-- The local constant `maxLineWidth`. -/
def maxLineWidth (layerHeight nozzleFlatSize : K) : K :=
  layerHeight + nozzleFlatSize

/-- The local constant `deltaRatio` of the soft band of
`determineLineWidthSafety`: `delta / maxAllowableDelta`. -/
def deltaRatio (lineWidth layerHeight nozzleDiameter : K) : K :=
  let maxAllowableDelta := 0.5 * minLineWidth layerHeight nozzleDiameter
  let delta := minLineWidth layerHeight nozzleDiameter - lineWidth
  delta / maxAllowableDelta

/-- The local constant `shift` of the soft band. -/
def shift (lineWidth layerHeight nozzleDiameter : K) : K :=
  (deltaRatio lineWidth layerHeight nozzleDiameter - 0.5) / 0.5

/-- The integer `Math.round((1 - Math.abs(shift)) * 15)` that `shiftHex`
prints. -/
def shiftHexValue [FloorRing K] (lineWidth layerHeight nozzleDiameter : K) : Int :=
  Math.round ((1 - |shift lineWidth layerHeight nozzleDiameter|) * 15)

/-- The local constant `shiftHex` of the soft band. -/
def shiftHex [FloorRing K] (lineWidth layerHeight nozzleDiameter : K) : String :=
  toString16 (shiftHexValue lineWidth layerHeight nozzleDiameter)

/-- The function `determineLineWidthSafety` (the `console.log` has no effect on
the result and is left out). -/
def determineLineWidthSafety [FloorRing K]
    (lineWidth layerHeight nozzleDiameter nozzleFlatSize : K) : String :=
  if lineWidth < 0.5 * minLineWidth layerHeight nozzleDiameter
      ∨ lineWidth > maxLineWidth layerHeight nozzleFlatSize then
    SAFETY_DETERMINATIONS.DANGER
  else if lineWidth < minLineWidth layerHeight nozzleDiameter then
    if shift lineWidth layerHeight nozzleDiameter > 0 then
      "#f" ++ shiftHex lineWidth layerHeight nozzleDiameter ++ "0"
    else if shift lineWidth layerHeight nozzleDiameter < 0 then
      "#" ++ shiftHex lineWidth layerHeight nozzleDiameter ++ "f0"
    else
      "#ff0"
  else
    SAFETY_DETERMINATIONS.SAFE

/-- The soft band of `determineLineWidthSafety`: the inputs that pass the
DANGER test and enter the branch `lineWidth < minLineWidth`. -/
def inSoftBand (lineWidth layerHeight nozzleDiameter nozzleFlatSize : K) : Prop :=
  ¬ (lineWidth < 0.5 * minLineWidth layerHeight nozzleDiameter
      ∨ lineWidth > maxLineWidth layerHeight nozzleFlatSize)
    ∧ lineWidth < minLineWidth layerHeight nozzleDiameter

instance (lineWidth layerHeight nozzleDiameter nozzleFlatSize : K) :
    Decidable (inSoftBand lineWidth layerHeight nozzleDiameter nozzleFlatSize) := by
  unfold inSoftBand; infer_instance

/-! ## Geometry -/

/-- The function `cylinderVolume`; `pi` stands for `Math.PI`. -/
def cylinderVolume (pi : K) (radius height : K) : K :=
  pi * radius ^ 2 * height

/-- The function `calculateIdealLineWidth`; `sqrt` stands for `Math.sqrt`. -/
def calculateIdealLineWidth (sqrt : K → K) (nozzleDiameter layerHeight : K) : K :=
  2 * sqrt ((nozzleDiameter / layerHeight) * (nozzleDiameter / 2) ^ 2)

/-- The memoised constant `outputVolume`. -/
def outputVolume (pi : K) (nozzleDiameter : K) : K :=
  cylinderVolume pi (nozzleDiameter / 2) nozzleDiameter

/-! ## The layer-height sweep -/

/-- The `for` loop that fills `heights`, started in the state `(i, heights)`,
in exact arithmetic: no operation rounds (`layerHeightsLoopRounded` is the same
loop with rounded operations). Each test of the loop condition costs one unit
of `fuel`; `none` means the fuel ran out before the loop exited. -/
def layerHeightsLoop (idealLayerHeightStep nozzleDiameter : K) :
    Nat → K → List K → Option (List K)
  | 0, _, _ => none
  | fuel + 1, i, heights =>
    if i ≤ nozzleDiameter * 1.6 then
      layerHeightsLoop idealLayerHeightStep nozzleDiameter fuel
        (i + idealLayerHeightStep) (heights ++ [i])
    else
      some heights

/-- The memoised constant `layerHeights`: the loop run from `i = step` and
`heights = []`. -/
def layerHeights (fuel : Nat) (idealLayerHeightStep nozzleDiameter : K) :
    Option (List K) :=
  layerHeightsLoop idealLayerHeightStep nozzleDiameter fuel idealLayerHeightStep []

/-- The `for` loop that fills `heights` with every arithmetic result rounded by
`round`, as JavaScript does with `round = binary64`: the literal `1.6` is
`round 1.6`, the bound is `round (nozzleDiameter * round 1.6)` and `i += step`
sets `i` to `round (i + step)`. The two inputs are JavaScript numbers already.
Fuel as in `layerHeightsLoop`. -/
def layerHeightsLoopRounded (round : K → K) (idealLayerHeightStep nozzleDiameter : K) :
    Nat → K → List K → Option (List K)
  | 0, _, _ => none
  | fuel + 1, i, heights =>
    if i ≤ round (nozzleDiameter * round 1.6) then
      layerHeightsLoopRounded round idealLayerHeightStep nozzleDiameter fuel
        (round (i + idealLayerHeightStep)) (heights ++ [i])
    else
      some heights

/-- The memoised constant `layerHeights` with rounded operations: the loop run
from `i = step` and `heights = []`. The state variables `idealLayerHeightStep`
and `nozzleDiameter` hold JavaScript numbers, so an input given here as an exact
value stands for the number `round` makes of it (`0.01` for the double nearest
to `0.01`). -/
def layerHeightsRounded (round : K → K) (fuel : Nat)
    (idealLayerHeightStep nozzleDiameter : K) : Option (List K) :=
  layerHeightsLoopRounded round (round idealLayerHeightStep) (round nozzleDiameter) fuel
    (round idealLayerHeightStep) []

/-- The value of the loop variable `i` after `k` executions of `i += step`,
each rounded by `round`: `step`, `round (step + step)`, and so on. -/
def runningSum (round : K → K) (idealLayerHeightStep : K) : Nat → K
  | 0 => idealLayerHeightStep
  | k + 1 => round (runningSum round idealLayerHeightStep k + idealLayerHeightStep)

/-! ## Colours of a record -/

/-- The local constant `layerHeightSafetyColor` of a record. -/
def layerHeightSafetyColor (layerHeight nozzleDiameter : K) : Option String :=
  SAFETY_COLORS.get (determineLayerHeightSafety layerHeight nozzleDiameter)

/-- The local constant `lineWidthSafetyColor` of a record, as a function of the
record's `idealLineWidth`. -/
def lineWidthSafetyColor [FloorRing K]
    (idealLineWidth layerHeight nozzleDiameter nozzleFlatSize : K) : String :=
  getSafetyColor
    (determineLineWidthSafety idealLineWidth layerHeight nozzleDiameter nozzleFlatSize)

/-! ## Volumes of a record -/

/-- The local constant `minExtrusionVolume` of a record. -/
def minExtrusionVolume (pi : K) (layerHeight nozzleDiameter : K) : K :=
  cylinderVolume pi (minLineWidth layerHeight nozzleDiameter / 2) layerHeight

/-- The local constant `minVolumeDelta` of a record, before it is rounded for
display. -/
def minVolumeDelta (pi : K) (layerHeight nozzleDiameter : K) : K :=
  (minExtrusionVolume pi layerHeight nozzleDiameter / outputVolume pi nozzleDiameter - 1) * 100

/-- The local constant `maxExtrusionVolume` of a record. -/
def maxExtrusionVolume (pi : K) (layerHeight nozzleFlatSize : K) : K :=
  cylinderVolume pi (maxLineWidth layerHeight nozzleFlatSize / 2) layerHeight

/-- The local constant `maxVolumeDelta` of a record, before it is rounded for
display. -/
def maxVolumeDelta (pi : K) (layerHeight nozzleDiameter nozzleFlatSize : K) : K :=
  (maxExtrusionVolume pi layerHeight nozzleFlatSize / outputVolume pi nozzleDiameter - 1) * 100

/-! ## Notes of a record -/

/-- The local constant `percentOverSpec` of `notes`. -/
def percentOverSpec (idealLineWidth maxLineWidth : K) : K :=
  (idealLineWidth / maxLineWidth - 1) * 100

/-- The local constant `percentUnderSpec` of `notes` (the same formula in both
branches that compute it). -/
def percentUnderSpec (idealLineWidth minLineWidth : K) : K :=
  (1 - idealLineWidth / minLineWidth) * 100

/-- The local constant `notes` of a record, as a function of the record's
`idealLineWidth`. The helper `roundTo` of `util/math` is not part of the
source tree: the parameter `roundTo` stands for it followed by the conversion
to a string that the template literal applies. -/
def notes (roundTo : K → Nat → String)
    (idealLineWidth layerHeight nozzleDiameter nozzleFlatSize : K) : String :=
  if idealLineWidth > maxLineWidth layerHeight nozzleFlatSize then
    overSpecNote
      (roundTo (percentOverSpec idealLineWidth (maxLineWidth layerHeight nozzleFlatSize)) 2)
  else if idealLineWidth < 0.5 * minLineWidth layerHeight nozzleDiameter then
    severeUnderSpecNote
      (roundTo (percentUnderSpec idealLineWidth (minLineWidth layerHeight nozzleDiameter)) 2)
  else if idealLineWidth < minLineWidth layerHeight nozzleDiameter then
    mildUnderSpecNote
      (roundTo (percentUnderSpec idealLineWidth (minLineWidth layerHeight nozzleDiameter)) 2)
  else
    withinSpecNote

end Classifiers

/-- The local constant `worstSafetyDetermination` of a record, as a function of
the two colours it reads. A value that comes from a property lookup is an
`Option String` (`none` for `undefined`), and `===` is equality of such values. -/
def worstSafetyDetermination (layerHeightSafetyColor : Option String)
    (lineWidthSafetyColor : String) : Option String :=
  let danger := SAFETY_COLORS.get SAFETY_DETERMINATIONS.DANGER
  let warning := SAFETY_COLORS.get SAFETY_DETERMINATIONS.WARNING
  let safe := SAFETY_COLORS.get SAFETY_DETERMINATIONS.SAFE
  if layerHeightSafetyColor = danger ∨ some lineWidthSafetyColor = danger then
    danger
  else if ¬ (lineWidthSafetyColor ∈ SAFETY_COLORS.values) then
    some lineWidthSafetyColor
  else if layerHeightSafetyColor = warning ∨ some lineWidthSafetyColor = warning then
    warning
  else
    safe

/-! ## Theorems -/

section Theorems

variable {K : Type} [LinearOrderedField K]

/-- C1: for every layer height and every positive nozzle diameter,
`determineLayerHeightSafety` returns SAFE iff `ratio ≤ 0.8`, WARNING iff
`0.8 < ratio ≤ 1.5` and DANGER iff `ratio > 1.5`, where
`ratio = layerHeight / nozzleDiameter`; in particular `ratio = 0.8` gives SAFE
and `ratio = 1.5` gives WARNING. -/
theorem determineLayerHeightSafety_buckets (layerHeight nozzleDiameter : K)
    (_hd : 0 < nozzleDiameter) :
    (determineLayerHeightSafety layerHeight nozzleDiameter = "safe"
        ↔ layerHeight / nozzleDiameter ≤ 0.8) ∧
    (determineLayerHeightSafety layerHeight nozzleDiameter = "warning"
        ↔ 0.8 < layerHeight / nozzleDiameter ∧ layerHeight / nozzleDiameter ≤ 1.5) ∧
    (determineLayerHeightSafety layerHeight nozzleDiameter = "danger"
        ↔ 1.5 < layerHeight / nozzleDiameter) ∧
    (layerHeight / nozzleDiameter = 0.8 →
        determineLayerHeightSafety layerHeight nozzleDiameter = "safe") ∧
    (layerHeight / nozzleDiameter = 1.5 →
        determineLayerHeightSafety layerHeight nozzleDiameter = "warning") := by
  have h815 : (0.8 : K) < 1.5 := by norm_num
  unfold determineLayerHeightSafety
  simp only [SAFETY_DETERMINATIONS.SAFE, SAFETY_DETERMINATIONS.WARNING,
    SAFETY_DETERMINATIONS.DANGER]
  by_cases h1 : layerHeight / nozzleDiameter ≤ 0.8
  · have h2 : ¬ (1.5 : K) < layerHeight / nozzleDiameter := fun h =>
      absurd (lt_of_lt_of_le (lt_trans h815 h) h1) (lt_irrefl _)
    have h3 : ¬ (0.8 : K) < layerHeight / nozzleDiameter := not_lt.mpr h1
    have h4 : layerHeight / nozzleDiameter ≠ 1.5 := fun h =>
      h2 (by rw [h] at h1; exact absurd (lt_of_lt_of_le h815 h1) (lt_irrefl _))
    simp [h1, h2, h3, h4]
  · have h0 : (0.8 : K) < layerHeight / nozzleDiameter := not_le.mp h1
    have h4 : layerHeight / nozzleDiameter ≠ 0.8 := ne_of_gt h0
    by_cases h2 : layerHeight / nozzleDiameter ≤ 1.5
    · have h3 : ¬ (1.5 : K) < layerHeight / nozzleDiameter := not_lt.mpr h2
      simp [h1, h2, h3, h0, h4]
    · have h3 : (1.5 : K) < layerHeight / nozzleDiameter := not_le.mp h2
      have h5 : layerHeight / nozzleDiameter ≠ 1.5 := ne_of_gt h3
      simp [h1, h2, h3, h0, h4, h5]

/-- Witness of C1 on `ℚ`: `layerHeight = 0.32`, `nozzleDiameter = 0.4`, whose
ratio is exactly `0.8`. -/
theorem determineLayerHeightSafety_buckets_witness :
    determineLayerHeightSafety (0.32 : ℚ) 0.4 = "safe" :=
  (determineLayerHeightSafety_buckets (0.32 : ℚ) 0.4 (by norm_num)).2.2.2.1 (by norm_num)

/-- C2: over the reals, for positive nozzle diameter and layer height, the
cylinder of diameter `calculateIdealLineWidth nozzleDiameter layerHeight` and
height `layerHeight` has the volume `outputVolume`. -/
theorem idealLineWidth_preserves_outputVolume (nozzleDiameter layerHeight : ℝ)
    (hd : 0 < nozzleDiameter) (hh : 0 < layerHeight) :
    cylinderVolume Real.pi
        (calculateIdealLineWidth Real.sqrt nozzleDiameter layerHeight / 2) layerHeight
      = outputVolume Real.pi nozzleDiameter := by
  have hx : 0 ≤ nozzleDiameter / layerHeight * (nozzleDiameter / 2) ^ 2 := by positivity
  unfold outputVolume cylinderVolume calculateIdealLineWidth
  rw [mul_div_cancel_left₀ _ (two_ne_zero), Real.sq_sqrt hx]
  field_simp
  ring

/-- Witness of C2 at the default nozzle (`0.4`) and the first swept layer
height (`0.04`). -/
theorem idealLineWidth_preserves_outputVolume_witness :
    cylinderVolume Real.pi (calculateIdealLineWidth Real.sqrt (0.4 : ℝ) 0.04 / 2) 0.04
      = outputVolume Real.pi 0.4 :=
  idealLineWidth_preserves_outputVolume 0.4 0.04 (by norm_num) (by norm_num)

/-! ### Shared facts about the soft band -/

theorem isColorString_not_category (s : String) (hs : isColorString s) :
    s ≠ "safe" ∧ s ≠ "warning" ∧ s ≠ "danger" := by
  unfold isColorString at hs
  refine ⟨?_, ?_, ?_⟩ <;> (intro h; rw [h] at hs; revert hs; decide)

theorem isColorString_red (x : String) : isColorString ("#f" ++ x ++ "0") := by
  unfold isColorString
  rw [String.data_append, String.data_append]
  rfl

theorem isColorString_green (x : String) : isColorString ("#" ++ x ++ "f0") := by
  unfold isColorString
  rw [String.data_append, String.data_append]
  rfl

theorem softBand_minLineWidth_pos {lineWidth layerHeight nozzleDiameter nozzleFlatSize : K}
    (hb : inSoftBand lineWidth layerHeight nozzleDiameter nozzleFlatSize) :
    0 < minLineWidth layerHeight nozzleDiameter := by
  obtain ⟨h1, h2⟩ := hb
  have h3 : 0.5 * minLineWidth layerHeight nozzleDiameter ≤ lineWidth :=
    not_lt.mp (fun h => h1 (Or.inl h))
  have h4 : 0.5 * minLineWidth layerHeight nozzleDiameter
      < minLineWidth layerHeight nozzleDiameter := lt_of_le_of_lt h3 h2
  norm_num at h4
  linarith

/-- The value of `shift` in closed form, for a positive `minLineWidth`. -/
theorem shift_eq {lineWidth layerHeight nozzleDiameter : K}
    (hm : 0 < minLineWidth layerHeight nozzleDiameter) :
    shift lineWidth layerHeight nozzleDiameter
      = 3 - 4 * lineWidth / minLineWidth layerHeight nozzleDiameter := by
  unfold shift deltaRatio
  have hm0 : minLineWidth layerHeight nozzleDiameter ≠ 0 := ne_of_gt hm
  norm_num
  field_simp
  ring

theorem determineLineWidthSafety_softBand [FloorRing K]
    {lineWidth layerHeight nozzleDiameter nozzleFlatSize : K}
    (hb : inSoftBand lineWidth layerHeight nozzleDiameter nozzleFlatSize) :
    determineLineWidthSafety lineWidth layerHeight nozzleDiameter nozzleFlatSize
      = if shift lineWidth layerHeight nozzleDiameter > 0 then
          "#f" ++ shiftHex lineWidth layerHeight nozzleDiameter ++ "0"
        else if shift lineWidth layerHeight nozzleDiameter < 0 then
          "#" ++ shiftHex lineWidth layerHeight nozzleDiameter ++ "f0"
        else "#ff0" := by
  unfold determineLineWidthSafety
  rw [if_neg hb.1, if_pos hb.2]

theorem determineLineWidthSafety_softBand_isColorString [FloorRing K]
    {lineWidth layerHeight nozzleDiameter nozzleFlatSize : K}
    (hb : inSoftBand lineWidth layerHeight nozzleDiameter nozzleFlatSize) :
    isColorString
      (determineLineWidthSafety lineWidth layerHeight nozzleDiameter nozzleFlatSize) := by
  rw [determineLineWidthSafety_softBand hb]
  split_ifs
  · exact isColorString_red _
  · exact isColorString_green _
  · decide

theorem toString16_hexDigit (n : Int) (h0 : 0 ≤ n) (h15 : n ≤ 15) :
    ∃ c : Char, isHexDigit c = true ∧ toString16 n = String.mk [c] := by
  refine ⟨Nat.digitChar n.toNat, ?_, ?_⟩ <;> interval_cases n <;> decide

theorem shiftHexValue_range [FloorRing K]
    {lineWidth layerHeight nozzleDiameter nozzleFlatSize : K}
    (hb : inSoftBand lineWidth layerHeight nozzleDiameter nozzleFlatSize) :
    0 ≤ shiftHexValue lineWidth layerHeight nozzleDiameter ∧
    shiftHexValue lineWidth layerHeight nozzleDiameter ≤ 15 := by
  have hm := softBand_minLineWidth_pos hb
  obtain ⟨h1, h2⟩ := hb
  have h3 : 0.5 * minLineWidth layerHeight nozzleDiameter ≤ lineWidth :=
    not_lt.mp (fun h => h1 (Or.inl h))
  have hq : 0 < lineWidth / minLineWidth layerHeight nozzleDiameter ∧
      lineWidth / minLineWidth layerHeight nozzleDiameter < 1 ∧
      1 / 2 ≤ lineWidth / minLineWidth layerHeight nozzleDiameter := by
    refine ⟨?_, ?_, ?_⟩
    · apply div_pos _ hm
      norm_num at h3; linarith
    · rw [div_lt_one hm]; exact h2
    · rw [le_div_iff₀ hm]; norm_num at h3 ⊢; linarith
  have habs : |shift lineWidth layerHeight nozzleDiameter| ≤ 1 := by
    rw [shift_eq hm, abs_le]
    constructor
    · rw [mul_div_assoc]; linarith
    · rw [mul_div_assoc]; linarith
  have hnn : 0 ≤ |shift lineWidth layerHeight nozzleDiameter| := abs_nonneg _
  unfold shiftHexValue Math.round
  constructor
  · rw [Int.floor_nonneg]
    nlinarith
  · have : ⌊(1 - |shift lineWidth layerHeight nozzleDiameter|) * 15 + 1 / 2⌋ < 16 := by
      rw [Int.floor_lt]
      push_cast
      linarith
    omega

/-! ### The line-width classifier -/

/-- C3: with `minW = layerHeight + nozzleDiameter` and
`maxW = layerHeight + nozzleFlatSize`, `determineLineWidthSafety` returns the
category DANGER iff `lineWidth < 0.5 * minW` or `lineWidth > maxW`; otherwise it
returns the category SAFE iff `lineWidth ≥ minW`; and otherwise (when
`0.5 * minW ≤ lineWidth < minW` and `lineWidth ≤ maxW`) it returns a colour
string, which starts with `#` and is none of the three category names. -/
theorem determineLineWidthSafety_partition [FloorRing K]
    (lineWidth layerHeight nozzleDiameter nozzleFlatSize : K) :
    (determineLineWidthSafety lineWidth layerHeight nozzleDiameter nozzleFlatSize = "danger"
        ↔ (lineWidth < 0.5 * (layerHeight + nozzleDiameter)
            ∨ lineWidth > layerHeight + nozzleFlatSize)) ∧
    (¬ (lineWidth < 0.5 * (layerHeight + nozzleDiameter)
          ∨ lineWidth > layerHeight + nozzleFlatSize) →
      (determineLineWidthSafety lineWidth layerHeight nozzleDiameter nozzleFlatSize = "safe"
        ↔ lineWidth ≥ layerHeight + nozzleDiameter)) ∧
    (0.5 * (layerHeight + nozzleDiameter) ≤ lineWidth →
      lineWidth < layerHeight + nozzleDiameter →
      lineWidth ≤ layerHeight + nozzleFlatSize →
      isColorString
          (determineLineWidthSafety lineWidth layerHeight nozzleDiameter nozzleFlatSize) ∧
      determineLineWidthSafety lineWidth layerHeight nozzleDiameter nozzleFlatSize ≠ "safe" ∧
      determineLineWidthSafety lineWidth layerHeight nozzleDiameter nozzleFlatSize ≠ "warning" ∧
      determineLineWidthSafety lineWidth layerHeight nozzleDiameter nozzleFlatSize
        ≠ "danger") := by
  by_cases hD : lineWidth < 0.5 * (layerHeight + nozzleDiameter)
      ∨ lineWidth > layerHeight + nozzleFlatSize
  · have hres : determineLineWidthSafety lineWidth layerHeight nozzleDiameter nozzleFlatSize
        = "danger" := by
      unfold determineLineWidthSafety minLineWidth maxLineWidth
      rw [if_pos hD]; rfl
    refine ⟨⟨fun _ => hD, fun _ => hres⟩, fun h => absurd hD h, ?_⟩
    intro h1 _ h3
    rcases hD with h | h
    · exact absurd h1 (not_le.mpr h)
    · exact absurd h3 (not_le.mpr h)
  · by_cases hS : lineWidth < layerHeight + nozzleDiameter
    · have hb : inSoftBand lineWidth layerHeight nozzleDiameter nozzleFlatSize := ⟨hD, hS⟩
      have hc := determineLineWidthSafety_softBand_isColorString hb
      have hn := isColorString_not_category _ hc
      refine ⟨⟨fun h => absurd h hn.2.2, fun h => absurd h hD⟩, fun _ =>
        ⟨fun h => absurd h hn.1, fun h => absurd hS (not_lt.mpr h)⟩, fun _ _ _ => ⟨hc, hn⟩⟩
    · have hres : determineLineWidthSafety lineWidth layerHeight nozzleDiameter nozzleFlatSize
          = "safe" := by
        unfold determineLineWidthSafety minLineWidth maxLineWidth
        rw [if_neg hD, if_neg hS]; rfl
      refine ⟨⟨fun h => ?_, fun h => absurd h hD⟩, fun _ =>
        ⟨fun _ => not_lt.mp hS, fun _ => hres⟩, fun _ h2 _ => absurd h2 hS⟩
      rw [hres] at h
      exact absurd h (by decide)

/-- Witness of C3 on `ℚ`: `lineWidth = 1.2`, `layerHeight = nozzleDiameter = 1`,
`nozzleFlatSize = 2` lies in the soft band and is given a colour string. -/
theorem determineLineWidthSafety_partition_witness :
    isColorString (determineLineWidthSafety (1.2 : ℚ) 1 1 2) :=
  ((determineLineWidthSafety_partition (1.2 : ℚ) 1 1 2).2.2
    (by norm_num) (by norm_num) (by norm_num)).1

/-- C4 as stated fails: at `lineWidth = 1`, `layerHeight = nozzleDiameter = 1`,
`nozzleFlatSize = 2` the input is in the soft band (`0.5 * minW = 1 ≤ 1 < 2`
and `1 ≤ 3`), yet `deltaRatio = 1` and `shift = 1`, so neither is `< 1`. The
program reaches this call: for `nozzleDiameter = 1` the ideal line width at
`layerHeight = 1` is `2 * sqrt(1 * 0.25) = 1`. -/
theorem softBand_ranges_counterexample :
    inSoftBand (1 : ℚ) 1 1 2 ∧ deltaRatio (1 : ℚ) 1 1 = 1 ∧ shift (1 : ℚ) 1 1 = 1 ∧
    ¬ (0 ≤ deltaRatio (1 : ℚ) 1 1 ∧ deltaRatio (1 : ℚ) 1 1 < 1 ∧
        -1 ≤ shift (1 : ℚ) 1 1 ∧ shift (1 : ℚ) 1 1 < 1) := by
  have hr : deltaRatio (1 : ℚ) 1 1 = 1 := by
    unfold deltaRatio minLineWidth; norm_num
  have hs : shift (1 : ℚ) 1 1 = 1 := by
    unfold shift; rw [hr]; norm_num
  refine ⟨?_, hr, hs, ?_⟩
  · unfold inSoftBand minLineWidth maxLineWidth; norm_num
  · rw [hr]; norm_num

/-- C4, amended: for every input of `determineLineWidthSafety` in the soft
band, `0 < deltaRatio ≤ 1` and `-1 < shift ≤ 1` (so `0 ≤ deltaRatio ≤ 1` and
`-1 ≤ shift ≤ 1`, the upper ends being reached at `lineWidth = 0.5 * minW`). -/
theorem softBand_ranges (lineWidth layerHeight nozzleDiameter nozzleFlatSize : K)
    (hb : inSoftBand lineWidth layerHeight nozzleDiameter nozzleFlatSize) :
    0 < deltaRatio lineWidth layerHeight nozzleDiameter ∧
    deltaRatio lineWidth layerHeight nozzleDiameter ≤ 1 ∧
    -1 < shift lineWidth layerHeight nozzleDiameter ∧
    shift lineWidth layerHeight nozzleDiameter ≤ 1 := by
  have hm := softBand_minLineWidth_pos hb
  obtain ⟨h1, h2⟩ := hb
  have h3 : 0.5 * minLineWidth layerHeight nozzleDiameter ≤ lineWidth :=
    not_lt.mp (fun h => h1 (Or.inl h))
  have hhalf : 0 < 0.5 * minLineWidth layerHeight nozzleDiameter := by
    norm_num; exact hm
  have hr0 : 0 < deltaRatio lineWidth layerHeight nozzleDiameter := by
    unfold deltaRatio
    exact div_pos (sub_pos.mpr h2) hhalf
  have hr1 : deltaRatio lineWidth layerHeight nozzleDiameter ≤ 1 := by
    unfold deltaRatio
    rw [div_le_one hhalf]
    norm_num at h3 ⊢
    linarith
  refine ⟨hr0, hr1, ?_, ?_⟩
  · unfold shift
    rw [lt_div_iff₀ (by norm_num)]
    norm_num
    linarith
  · unfold shift
    rw [div_le_iff₀ (by norm_num)]
    norm_num
    linarith

/-- Witness of C4 (amended) on `ℚ`, at the lower edge of the soft band. -/
theorem softBand_ranges_witness :
    inSoftBand (1 : ℚ) 1 1 2 ∧
    0 < deltaRatio (1 : ℚ) 1 1 ∧ deltaRatio (1 : ℚ) 1 1 ≤ 1 ∧
    -1 < shift (1 : ℚ) 1 1 ∧ shift (1 : ℚ) 1 1 ≤ 1 :=
  have hb : inSoftBand (1 : ℚ) 1 1 2 := by
    unfold inSoftBand minLineWidth maxLineWidth; norm_num
  ⟨hb, softBand_ranges 1 1 1 2 hb⟩

/-- C5: for every input of `determineLineWidthSafety` in the soft band, the
integer `round((1 - |shift|) * 15)` lies between 0 and 15, `shiftHex` is one
hexadecimal digit, and the result is `#` followed by exactly three hexadecimal
digits; for every input outside the soft band the result is one of the three
category names. -/
theorem determineLineWidthSafety_result_shape [FloorRing K]
    (lineWidth layerHeight nozzleDiameter nozzleFlatSize : K) :
    (inSoftBand lineWidth layerHeight nozzleDiameter nozzleFlatSize →
      0 ≤ shiftHexValue lineWidth layerHeight nozzleDiameter ∧
      shiftHexValue lineWidth layerHeight nozzleDiameter ≤ 15 ∧
      (∃ c : Char, isHexDigit c = true ∧
        shiftHex lineWidth layerHeight nozzleDiameter = String.mk [c]) ∧
      (∃ a b c : Char, isHexDigit a = true ∧ isHexDigit b = true ∧ isHexDigit c = true ∧
        determineLineWidthSafety lineWidth layerHeight nozzleDiameter nozzleFlatSize
          = String.mk ['#', a, b, c])) ∧
    (¬ inSoftBand lineWidth layerHeight nozzleDiameter nozzleFlatSize →
      determineLineWidthSafety lineWidth layerHeight nozzleDiameter nozzleFlatSize = "safe" ∨
      determineLineWidthSafety lineWidth layerHeight nozzleDiameter nozzleFlatSize = "warning" ∨
      determineLineWidthSafety lineWidth layerHeight nozzleDiameter nozzleFlatSize
        = "danger") := by
  constructor
  · intro hb
    obtain ⟨h0, h15⟩ := shiftHexValue_range hb
    obtain ⟨c, hc, hx⟩ := toString16_hexDigit _ h0 h15
    have hx2 : shiftHex lineWidth layerHeight nozzleDiameter = String.mk [c] := hx
    refine ⟨h0, h15, ⟨c, hc, hx2⟩, ?_⟩
    rw [determineLineWidthSafety_softBand hb, hx2]
    split_ifs
    · exact ⟨'f', c, '0', by decide, hc, by decide, rfl⟩
    · exact ⟨c, 'f', '0', hc, by decide, by decide, rfl⟩
    · exact ⟨'f', 'f', '0', by decide, by decide, by decide, by decide⟩
  · intro hnb
    unfold inSoftBand at hnb
    unfold determineLineWidthSafety
    by_cases hD : lineWidth < 0.5 * minLineWidth layerHeight nozzleDiameter
        ∨ lineWidth > maxLineWidth layerHeight nozzleFlatSize
    · rw [if_pos hD]; exact Or.inr (Or.inr rfl)
    · have hS : ¬ lineWidth < minLineWidth layerHeight nozzleDiameter :=
        fun h => hnb ⟨hD, h⟩
      rw [if_neg hD, if_neg hS]; exact Or.inl rfl

/-- Witness of C5 on `ℚ`: the soft-band input `lineWidth = 1.2`,
`layerHeight = nozzleDiameter = 1`, `nozzleFlatSize = 2` has
`shiftHexValue` between 0 and 15. -/
theorem determineLineWidthSafety_result_shape_witness :
    0 ≤ shiftHexValue (1.2 : ℚ) 1 1 ∧ shiftHexValue (1.2 : ℚ) 1 1 ≤ 15 :=
  have h := (determineLineWidthSafety_result_shape (1.2 : ℚ) 1 1 2).1
    (by unfold inSoftBand minLineWidth maxLineWidth; norm_num)
  ⟨h.1, h.2.1⟩

/-- C6: within the soft band (`minW > 0`, `0.5 * minW ≤ lineWidth < minW`,
`lineWidth ≤ maxW`), `shift = 0` exactly when `lineWidth = 0.75 * minW`,
`shift > 0` for smaller and `shift < 0` for larger `lineWidth`, and at
`lineWidth = 0.75 * minW` the returned colour is `#ff0`. -/
theorem shift_zero_at_midpoint [FloorRing K]
    (lineWidth layerHeight nozzleDiameter nozzleFlatSize : K)
    (hm : 0 < layerHeight + nozzleDiameter)
    (h1 : 0.5 * (layerHeight + nozzleDiameter) ≤ lineWidth)
    (h2 : lineWidth < layerHeight + nozzleDiameter)
    (h3 : lineWidth ≤ layerHeight + nozzleFlatSize) :
    (shift lineWidth layerHeight nozzleDiameter = 0
        ↔ lineWidth = 0.75 * (layerHeight + nozzleDiameter)) ∧
    (lineWidth < 0.75 * (layerHeight + nozzleDiameter) →
        shift lineWidth layerHeight nozzleDiameter > 0) ∧
    (0.75 * (layerHeight + nozzleDiameter) < lineWidth →
        shift lineWidth layerHeight nozzleDiameter < 0) ∧
    (lineWidth = 0.75 * (layerHeight + nozzleDiameter) →
        determineLineWidthSafety lineWidth layerHeight nozzleDiameter nozzleFlatSize
          = "#ff0") := by
  have hm2 : 0 < minLineWidth layerHeight nozzleDiameter := hm
  have hb : inSoftBand lineWidth layerHeight nozzleDiameter nozzleFlatSize := by
    refine ⟨fun h => ?_, h2⟩
    rcases h with h | h
    · exact absurd h1 (not_le.mpr h)
    · exact absurd h3 (not_le.mpr h)
  have hs : shift lineWidth layerHeight nozzleDiameter
      = 3 - 4 * lineWidth / (layerHeight + nozzleDiameter) := shift_eq hm2
  have hne : layerHeight + nozzleDiameter ≠ 0 := ne_of_gt hm
  have hzero : shift lineWidth layerHeight nozzleDiameter = 0
      ↔ lineWidth = 0.75 * (layerHeight + nozzleDiameter) := by
    rw [hs, sub_eq_zero, eq_div_iff hne]
    constructor
    · intro h; norm_num; linarith
    · intro h; rw [h]; norm_num; ring
  refine ⟨hzero, ?_, ?_, ?_⟩
  · intro h
    rw [hs, gt_iff_lt, sub_pos, div_lt_iff₀ hm]
    norm_num at h; linarith
  · intro h
    rw [hs, sub_neg, lt_div_iff₀ hm]
    norm_num at h; linarith
  · intro h
    have h0 := hzero.mpr h
    rw [determineLineWidthSafety_softBand hb, h0]
    simp

/-- Witness of C6 on `ℚ`: `minW = 2`, `lineWidth = 1.5 = 0.75 * minW`. -/
theorem shift_zero_at_midpoint_witness :
    determineLineWidthSafety (1.5 : ℚ) 1 1 2 = "#ff0" :=
  (shift_zero_at_midpoint (1.5 : ℚ) 1 1 2 (by norm_num) (by norm_num) (by norm_num)
    (by norm_num)).2.2.2 (by norm_num)

/-- C7: for `minW > 0` and an input not classified DANGER, `lineWidth =
0.5 * minW` returns `#f00`, and every `lineWidth` with
`(119/120) * minW < lineWidth < minW` returns `#0f0`: the soft-band gradient
runs from the fixed DANGER colour to the fixed SAFE colour. -/
theorem gradient_endpoints [FloorRing K]
    (lineWidth layerHeight nozzleDiameter nozzleFlatSize : K)
    (hm : 0 < layerHeight + nozzleDiameter)
    (hnd : determineLineWidthSafety lineWidth layerHeight nozzleDiameter nozzleFlatSize
      ≠ "danger") :
    (lineWidth = 0.5 * (layerHeight + nozzleDiameter) →
      determineLineWidthSafety lineWidth layerHeight nozzleDiameter nozzleFlatSize
        = "#f00") ∧
    (119 / 120 * (layerHeight + nozzleDiameter) < lineWidth →
      lineWidth < layerHeight + nozzleDiameter →
      determineLineWidthSafety lineWidth layerHeight nozzleDiameter nozzleFlatSize
        = "#0f0") := by
  have hm2 : 0 < minLineWidth layerHeight nozzleDiameter := hm
  have hD : ¬ (lineWidth < 0.5 * minLineWidth layerHeight nozzleDiameter
      ∨ lineWidth > maxLineWidth layerHeight nozzleFlatSize) := by
    intro h
    apply hnd
    unfold determineLineWidthSafety
    rw [if_pos h]; rfl
  have hs : shift lineWidth layerHeight nozzleDiameter
      = 3 - 4 * lineWidth / (layerHeight + nozzleDiameter) := shift_eq hm2
  have hne : layerHeight + nozzleDiameter ≠ 0 := ne_of_gt hm
  constructor
  · intro h
    have hlt : lineWidth < minLineWidth layerHeight nozzleDiameter := by
      unfold minLineWidth; rw [h]; norm_num; linarith
    have hs1 : shift lineWidth layerHeight nozzleDiameter = 1 := by
      rw [hs, h]; field_simp; ring
    have hv : shiftHex lineWidth layerHeight nozzleDiameter = "0" := by
      unfold shiftHex shiftHexValue Math.round
      rw [hs1]
      have : ⌊(1 - |(1 : K)|) * 15 + 1 / 2⌋ = 0 := by
        rw [Int.floor_eq_zero_iff]; norm_num
      rw [this]; decide
    rw [determineLineWidthSafety_softBand ⟨hD, hlt⟩, hs1, hv]
    simp
  · intro h1 h2
    have hq1 : 119 / 120 < lineWidth / (layerHeight + nozzleDiameter) := by
      rw [lt_div_iff₀ hm]; exact h1
    have hq2 : lineWidth / (layerHeight + nozzleDiameter) < 1 := by
      rw [div_lt_one hm]; exact h2
    have hneg : shift lineWidth layerHeight nozzleDiameter < 0 := by
      rw [hs, mul_div_assoc]; linarith
    have hv : shiftHex lineWidth layerHeight nozzleDiameter = "0" := by
      unfold shiftHex shiftHexValue Math.round
      have : ⌊(1 - |shift lineWidth layerHeight nozzleDiameter|) * 15 + 1 / 2⌋ = 0 := by
        rw [Int.floor_eq_zero_iff, abs_of_neg hneg, hs, mul_div_assoc]
        constructor <;> linarith
      rw [this]; decide
    rw [determineLineWidthSafety_softBand ⟨hD, h2⟩, if_neg (not_lt.mpr (le_of_lt hneg)),
      if_pos hneg, hv]
    decide

/-- Witness of C7 on `ℚ`, with `minW = 2` and `maxW = 3`: `lineWidth = 1 =
0.5 * minW` gives `#f00`, and `lineWidth = 1.99 > (119/120) * minW` gives
`#0f0`. -/
theorem gradient_endpoints_witness :
    determineLineWidthSafety (1 : ℚ) 1 1 2 = "#f00" ∧
    determineLineWidthSafety (1.99 : ℚ) 1 1 2 = "#0f0" :=
  ⟨(gradient_endpoints (1 : ℚ) 1 1 2 (by norm_num)
      (isColorString_not_category _ (determineLineWidthSafety_softBand_isColorString
        (by unfold inSoftBand minLineWidth maxLineWidth; norm_num))).2.2).1 (by norm_num),
   (gradient_endpoints (1.99 : ℚ) 1 1 2 (by norm_num)
      (isColorString_not_category _ (determineLineWidthSafety_softBand_isColorString
        (by unfold inSoftBand minLineWidth maxLineWidth; norm_num))).2.2).2
      (by norm_num) (by norm_num)⟩

/-! ### The worst-case combinator -/

theorem worstSafetyDetermination_safe_left (W : String) :
    worstSafetyDetermination (some "#0f0") W = some W := by
  by_cases h1 : W = "#f00"
  · subst h1; decide
  · by_cases h2 : W = "#ff0"
    · subst h2; decide
    · by_cases h3 : W = "#0f0"
      · subst h3; decide
      · simp [worstSafetyDetermination, SAFETY_COLORS.get, SAFETY_COLORS.values,
          SAFETY_COLORS, SAFETY_DETERMINATIONS.SAFE, SAFETY_DETERMINATIONS.WARNING,
          SAFETY_DETERMINATIONS.DANGER, List.lookup, h1, h2, h3]

theorem getSafetyColor_of_isColorString (s : String) (hs : isColorString s) :
    getSafetyColor s = s := by
  obtain ⟨h1, h2, h3⟩ := isColorString_not_category s hs
  have e1 : (s == "safe") = false := beq_eq_false_iff_ne.mpr h1
  have e2 : (s == "warning") = false := beq_eq_false_iff_ne.mpr h2
  have e3 : (s == "danger") = false := beq_eq_false_iff_ne.mpr h3
  simp only [getSafetyColor, SAFETY_COLORS.get, SAFETY_COLORS, SAFETY_DETERMINATIONS.SAFE,
    SAFETY_DETERMINATIONS.WARNING, SAFETY_DETERMINATIONS.DANGER, List.lookup, e1, e2, e3]

/-- C8: for a layer-height colour `L` among `#0f0`, `#ff0`, `#f00` and any
resolved line-width colour `W`, `worstSafetyDetermination` returns `#f00` iff
`L = #f00` or `W = #f00`; otherwise, if `W` is not one of the three fixed
colours, it returns `W`; otherwise it returns `#ff0` if `L = #ff0` or
`W = #ff0`; otherwise it returns `#0f0`. -/
theorem worstSafetyDetermination_rules (L W : String)
    (hL : L = "#0f0" ∨ L = "#ff0" ∨ L = "#f00") :
    (worstSafetyDetermination (some L) W = some "#f00" ↔ (L = "#f00" ∨ W = "#f00")) ∧
    (¬ (L = "#f00" ∨ W = "#f00") →
      (W ∉ ["#0f0", "#ff0", "#f00"] → worstSafetyDetermination (some L) W = some W) ∧
      (W ∈ ["#0f0", "#ff0", "#f00"] →
        ((L = "#ff0" ∨ W = "#ff0") → worstSafetyDetermination (some L) W = some "#ff0") ∧
        (¬ (L = "#ff0" ∨ W = "#ff0") →
          worstSafetyDetermination (some L) W = some "#0f0"))) := by
  by_cases h1 : W = "#f00"
  · subst h1
    rcases hL with h | h | h <;> subst h <;> decide
  · by_cases h2 : W = "#ff0"
    · subst h2
      rcases hL with h | h | h <;> subst h <;> decide
    · by_cases h3 : W = "#0f0"
      · subst h3
        rcases hL with h | h | h <;> subst h <;> decide
      · rcases hL with h | h | h <;> subst h <;>
          simp [worstSafetyDetermination, SAFETY_COLORS.get, SAFETY_COLORS.values,
            SAFETY_COLORS, SAFETY_DETERMINATIONS.SAFE, SAFETY_DETERMINATIONS.WARNING,
            SAFETY_DETERMINATIONS.DANGER, List.lookup, h1, h2, h3]

/-- Witness of C8: a warning layer height with a gradient line-width colour
yields the gradient colour. -/
theorem worstSafetyDetermination_rules_witness :
    worstSafetyDetermination (some "#ff0") "#f60" = some "#f60" :=
  ((worstSafetyDetermination_rules "#ff0" "#f60" (by decide)).2 (by decide)).1 (by decide)

/-- C9: (a) whenever the layer-height verdict is DANGER, the combined colour is
`#f00` whatever the line-width colour is (in particular for the colour of a
SAFE line width); (b) for every soft-band result `G` of
`determineLineWidthSafety` (also one equal to `#f00`, `#ff0` or `#0f0`), when
the layer-height verdict is SAFE the combined colour equals `G`. -/
theorem worstSafetyDetermination_precedence [FloorRing K]
    (lineWidth layerHeight nozzleDiameter nozzleFlatSize : K) :
    (determineLayerHeightSafety layerHeight nozzleDiameter = "danger" →
      (∀ W : String,
        worstSafetyDetermination (layerHeightSafetyColor layerHeight nozzleDiameter) W
          = some "#f00") ∧
      worstSafetyDetermination (layerHeightSafetyColor layerHeight nozzleDiameter)
          (getSafetyColor "safe") = some "#f00") ∧
    (determineLayerHeightSafety layerHeight nozzleDiameter = "safe" →
      inSoftBand lineWidth layerHeight nozzleDiameter nozzleFlatSize →
      worstSafetyDetermination (layerHeightSafetyColor layerHeight nozzleDiameter)
          (lineWidthSafetyColor lineWidth layerHeight nozzleDiameter nozzleFlatSize)
        = some (determineLineWidthSafety lineWidth layerHeight nozzleDiameter
            nozzleFlatSize)) := by
  constructor
  · intro h
    have hall : ∀ W : String,
        worstSafetyDetermination (layerHeightSafetyColor layerHeight nozzleDiameter) W
          = some "#f00" := by
      intro W
      unfold layerHeightSafetyColor
      rw [h]
      have hL : SAFETY_COLORS.get "danger" = some "#f00" := by decide
      rw [hL]
      unfold worstSafetyDetermination
      rw [show SAFETY_COLORS.get SAFETY_DETERMINATIONS.DANGER = some "#f00" by decide]
      simp
    exact ⟨hall, hall _⟩
  · intro h hb
    unfold layerHeightSafetyColor lineWidthSafetyColor
    rw [h, getSafetyColor_of_isColorString _
      (determineLineWidthSafety_softBand_isColorString hb)]
    have hL : SAFETY_COLORS.get "safe" = some "#0f0" := by decide
    rw [hL]
    exact worstSafetyDetermination_safe_left _

/-- Witness of C9 on `ℚ`: (a) `layerHeight = 2`, `nozzleDiameter = 1` is a DANGER
layer height; (b) `layerHeight = 0.5`, `nozzleDiameter = 1`, `lineWidth = 1.125`
is a SAFE layer height with the soft-band colour `#ff0`. -/
theorem worstSafetyDetermination_precedence_witness :
    worstSafetyDetermination (layerHeightSafetyColor (2 : ℚ) 1) (getSafetyColor "safe")
        = some "#f00" ∧
    worstSafetyDetermination (layerHeightSafetyColor (0.5 : ℚ) 1)
        (lineWidthSafetyColor (1.125 : ℚ) 0.5 1 2)
      = some (determineLineWidthSafety (1.125 : ℚ) 0.5 1 2) :=
  ⟨((worstSafetyDetermination_precedence (1 : ℚ) 2 1 2).1
      (by unfold determineLayerHeightSafety; norm_num; rfl)).2,
   (worstSafetyDetermination_precedence (1.125 : ℚ) 0.5 1 2).2
      (by unfold determineLayerHeightSafety; norm_num; rfl)
      (by unfold inSoftBand minLineWidth maxLineWidth; norm_num)⟩

/-! ### The layer-height sweep -/

/-- One run of the loop from `i = (j + 1) * step` with `m` iterations left
before the bound is passed: it appends the next `m` multiples of `step`. -/
theorem layerHeightsLoop_run [FloorRing K] (step d : K) (hstep : 0 < step) (hd : 0 < d) :
    ∀ (m j fuel : Nat) (acc : List K), j + m = ⌊d * 1.6 / step⌋₊ → m + 1 ≤ fuel →
      layerHeightsLoop step d fuel (((j + 1 : Nat) : K) * step) acc
        = some (acc ++ (List.range m).map (fun k => (((j + k + 1 : Nat)) : K) * step)) := by
  have hnn : 0 ≤ d * 1.6 / step := by positivity
  have hle : ∀ k : Nat, k ≤ ⌊d * 1.6 / step⌋₊ → (k : K) * step ≤ d * 1.6 := by
    intro k hk
    have h1 : (k : K) ≤ d * 1.6 / step :=
      le_trans (Nat.cast_le.mpr hk) (Nat.floor_le hnn)
    exact (le_div_iff₀ hstep).mp h1
  have hgt : d * 1.6 < ((⌊d * 1.6 / step⌋₊ + 1 : Nat) : K) * step := by
    have h1 : d * 1.6 / step < (⌊d * 1.6 / step⌋₊ : K) + 1 := Nat.lt_floor_add_one _
    rw [div_lt_iff₀ hstep] at h1
    push_cast
    exact h1
  intro m
  induction m with
  | zero =>
    intro j fuel acc hj hf
    obtain ⟨f, rfl⟩ : ∃ f, fuel = f + 1 := ⟨fuel - 1, by omega⟩
    have hj2 : j = ⌊d * 1.6 / step⌋₊ := by omega
    subst hj2
    unfold layerHeightsLoop
    rw [if_neg (not_le.mpr hgt)]
    simp
  | succ m ih =>
    intro j fuel acc hj hf
    obtain ⟨f, rfl⟩ : ∃ f, fuel = f + 1 := ⟨fuel - 1, by omega⟩
    have hcond : ((j + 1 : Nat) : K) * step ≤ d * 1.6 := hle (j + 1) (by omega)
    unfold layerHeightsLoop
    rw [if_pos hcond]
    have hnext : ((j + 1 : Nat) : K) * step + step = ((j + 1 + 1 : Nat) : K) * step := by
      push_cast; ring
    rw [hnext, ih (j + 1) f _ (by omega) (by omega), List.range_succ_eq_map,
      List.map_cons, List.map_map, List.append_assoc]
    congr 2
    simp only [List.singleton_append, Nat.add_zero, List.cons.injEq, true_and]
    apply List.map_congr_left
    intro k _
    simp only [Function.comp_apply]
    congr 2
    omega

/-- The sweep in exact arithmetic: for `step > 0` and `nozzleDiameter > 0`,
with `n = floor(1.6 * nozzleDiameter / step)`, the loop without rounding exits
(whenever it is given fuel for its `n + 1` tests of the loop condition) and
returns the list `[step, 2 * step, ..., n * step]`: it has exactly `n` values,
every value `v` satisfies `step ≤ v ≤ 1.6 * nozzleDiameter`, consecutive values
differ by exactly `step`, and the list is strictly increasing. -/
theorem layerHeights_sweep [FloorRing K] (step nozzleDiameter : K)
    (hstep : 0 < step) (hd : 0 < nozzleDiameter) :
    ∃ heights : List K,
      (∀ fuel : Nat, ⌊1.6 * nozzleDiameter / step⌋₊ + 1 ≤ fuel →
        layerHeights fuel step nozzleDiameter = some heights) ∧
      heights = (List.range ⌊1.6 * nozzleDiameter / step⌋₊).map
        (fun k => ((k + 1 : Nat) : K) * step) ∧
      heights.length = ⌊1.6 * nozzleDiameter / step⌋₊ ∧
      (∀ v ∈ heights, step ≤ v ∧ v ≤ 1.6 * nozzleDiameter) ∧
      (∀ k : Nat, k + 1 < heights.length →
        heights.getD (k + 1) 0 - heights.getD k 0 = step) ∧
      heights.Pairwise (fun a b => a < b) := by
  have hcomm : (1.6 : K) * nozzleDiameter = nozzleDiameter * 1.6 := mul_comm _ _
  have hnn : 0 ≤ nozzleDiameter * 1.6 / step := by positivity
  refine ⟨_, ?_, rfl, by simp, ?_, ?_, ?_⟩
  · intro fuel hf
    rw [hcomm] at hf ⊢
    have h := layerHeightsLoop_run step nozzleDiameter hstep hd
      ⌊nozzleDiameter * 1.6 / step⌋₊ 0 fuel [] (by omega) hf
    unfold layerHeights
    simp only [Nat.zero_add, Nat.cast_one, one_mul, List.nil_append] at h
    rw [h]
  · intro v hv
    rw [List.mem_map] at hv
    obtain ⟨k, hk, rfl⟩ := hv
    rw [List.mem_range] at hk
    constructor
    · have h1 : (1 : K) ≤ ((k + 1 : Nat) : K) := by
        rw [Nat.one_le_cast]; omega
      nlinarith
    · rw [hcomm] at hk ⊢
      have h1 : (((k + 1 : Nat)) : K) ≤ nozzleDiameter * 1.6 / step :=
        le_trans (Nat.cast_le.mpr hk) (Nat.floor_le hnn)
      exact (le_div_iff₀ hstep).mp h1
  · intro k hk
    simp only [List.length_map, List.length_range] at hk
    rw [List.getD_eq_getElem _ _ (by simpa using hk),
      List.getD_eq_getElem _ _ (by simp; omega)]
    simp only [List.getElem_map, List.getElem_range]
    push_cast
    ring
  · rw [List.pairwise_map]
    refine List.Pairwise.imp ?_ (List.pairwise_lt_range _)
    intro a b hab
    have h1 : ((a + 1 : Nat) : K) < ((b + 1 : Nat) : K) := by
      rw [Nat.cast_lt]; omega
    exact mul_lt_mul_of_pos_right h1 hstep

/-- The sweep in exact arithmetic on `ℚ`, at the default inputs
`step = 0.04`, `nozzleDiameter = 0.4`. -/
theorem layerHeights_sweep_witness :
    ∃ heights : List ℚ,
      (∀ fuel : Nat, ⌊(1.6 : ℚ) * 0.4 / 0.04⌋₊ + 1 ≤ fuel →
        layerHeights fuel (0.04 : ℚ) 0.4 = some heights) ∧
      heights = (List.range ⌊(1.6 : ℚ) * 0.4 / 0.04⌋₊).map
        (fun k => ((k + 1 : Nat) : ℚ) * 0.04) ∧
      heights.length = ⌊(1.6 : ℚ) * 0.4 / 0.04⌋₊ ∧
      (∀ v ∈ heights, (0.04 : ℚ) ≤ v ∧ v ≤ 1.6 * 0.4) ∧
      (∀ k : Nat, k + 1 < heights.length →
        heights.getD (k + 1) 0 - heights.getD k 0 = 0.04) ∧
      heights.Pairwise (fun a b => a < b) :=
  layerHeights_sweep (0.04 : ℚ) 0.4 (by norm_num) (by norm_num)

/-! ### Notes -/

theorem noteTag_overSpecNote (p : String) : noteTag (overSpecNote p) = some 't' := by
  unfold noteTag overSpecNote
  rw [String.data_append, List.reverse_append]
  rfl

theorem noteTag_severeUnderSpecNote (p : String) :
    noteTag (severeUnderSpecNote p) = some 'r' := by
  unfold noteTag severeUnderSpecNote
  rw [String.data_append, List.reverse_append]
  rfl

theorem noteTag_mildUnderSpecNote (p : String) :
    noteTag (mildUnderSpecNote p) = some 'h' := by
  unfold noteTag mildUnderSpecNote
  rw [String.data_append, List.reverse_append]
  rfl

theorem noteTag_withinSpecNote : noteTag withinSpecNote = some 'y' := by
  decide

/-! ### Geometry -/

/-- C11: over the reals, for every positive nozzle diameter,
`calculateIdealLineWidth` is strictly decreasing in the layer height: for
`0 < h1 < h2` the ideal line width at `h1` exceeds the one at `h2`. -/
theorem calculateIdealLineWidth_strictAnti (nozzleDiameter h1 h2 : ℝ)
    (hd : 0 < nozzleDiameter) (hh1 : 0 < h1) (hlt : h1 < h2) :
    calculateIdealLineWidth Real.sqrt nozzleDiameter h1
      > calculateIdealLineWidth Real.sqrt nozzleDiameter h2 := by
  have hh2 : 0 < h2 := lt_trans hh1 hlt
  have hsq : 0 < (nozzleDiameter / 2) ^ 2 := by positivity
  have hdiv : nozzleDiameter / h2 < nozzleDiameter / h1 :=
    div_lt_div_of_pos_left hd hh1 hlt
  have hx : 0 ≤ nozzleDiameter / h2 * (nozzleDiameter / 2) ^ 2 := by positivity
  have hrad : nozzleDiameter / h2 * (nozzleDiameter / 2) ^ 2
      < nozzleDiameter / h1 * (nozzleDiameter / 2) ^ 2 :=
    mul_lt_mul_of_pos_right hdiv hsq
  have hs := Real.sqrt_lt_sqrt hx hrad
  unfold calculateIdealLineWidth
  linarith

/-- Witness of C11 at the default nozzle (`0.4`) and the first two swept layer
heights (`0.04`, `0.08`). -/
theorem calculateIdealLineWidth_strictAnti_witness :
    calculateIdealLineWidth Real.sqrt (0.4 : ℝ) 0.04
      > calculateIdealLineWidth Real.sqrt (0.4 : ℝ) 0.08 :=
  calculateIdealLineWidth_strictAnti 0.4 0.04 0.08 (by norm_num) (by norm_num) (by norm_num)

/-- C14: over the reals, for every positive nozzle diameter and every layer
height and nozzle flat size, the unrounded `maxVolumeDelta` recovers
`maxExtrusionVolume` as `outputVolume * (1 + maxVolumeDelta / 100)`, and the
unrounded `minVolumeDelta` recovers `minExtrusionVolume` likewise. -/
theorem volumeDelta_roundTrip (nozzleDiameter layerHeight nozzleFlatSize : ℝ)
    (hd : 0 < nozzleDiameter) :
    maxExtrusionVolume Real.pi layerHeight nozzleFlatSize
      = outputVolume Real.pi nozzleDiameter
          * (1 + maxVolumeDelta Real.pi layerHeight nozzleDiameter nozzleFlatSize / 100) ∧
    minExtrusionVolume Real.pi layerHeight nozzleDiameter
      = outputVolume Real.pi nozzleDiameter
          * (1 + minVolumeDelta Real.pi layerHeight nozzleDiameter / 100) := by
  have hout : outputVolume Real.pi nozzleDiameter ≠ 0 := by
    unfold outputVolume cylinderVolume
    have := Real.pi_pos
    positivity
  constructor
  · unfold maxVolumeDelta
    field_simp
    ring
  · unfold minVolumeDelta
    field_simp
    ring

/-- Witness of C14 at the default inputs (`nozzleDiameter = 0.4`,
`nozzleFlatSize = 0.6`) and the first swept layer height. -/
theorem volumeDelta_roundTrip_witness :
    maxExtrusionVolume Real.pi (0.04 : ℝ) 0.6
      = outputVolume Real.pi 0.4 * (1 + maxVolumeDelta Real.pi 0.04 0.4 0.6 / 100) ∧
    minExtrusionVolume Real.pi (0.04 : ℝ) 0.4
      = outputVolume Real.pi 0.4 * (1 + minVolumeDelta Real.pi 0.04 0.4 / 100) :=
  volumeDelta_roundTrip 0.4 0.04 0.6 (by norm_num)

/-! ### The sweep for a non-positive step -/

/-- With a non-positive step, a loop state whose `i` passes the loop condition
never leads to an exit: every amount of fuel runs out. -/
theorem layerHeightsLoop_diverges (step d : K) (hstep : step ≤ 0) :
    ∀ (fuel : Nat) (i : K) (acc : List K), i ≤ d * 1.6 →
      layerHeightsLoop step d fuel i acc = none := by
  intro fuel
  induction fuel with
  | zero => intro i acc _; rfl
  | succ f ih =>
    intro i acc hi
    unfold layerHeightsLoop
    rw [if_pos hi]
    exact ih _ _ (by linarith)

/-- C13: the sweep loop has no guard on the step. If `step > 1.6 *
nozzleDiameter` the loop body never runs and the sequence is empty. If
`step ≤ 0` and `step ≤ 1.6 * nozzleDiameter` (as always for a positive nozzle
diameter), the loop condition holds for every value `i = (k + 1) * step` the
loop reaches, and the loop never exits: every amount of fuel runs out. -/
theorem layerHeights_degenerate_step (step nozzleDiameter : K) :
    (step > 1.6 * nozzleDiameter →
      ∀ fuel : Nat, 1 ≤ fuel → layerHeights fuel step nozzleDiameter = some []) ∧
    (step ≤ 0 → step ≤ 1.6 * nozzleDiameter →
      (∀ k : Nat, ((k + 1 : Nat) : K) * step ≤ 1.6 * nozzleDiameter) ∧
      (∀ fuel : Nat, layerHeights fuel step nozzleDiameter = none)) ∧
    (step ≤ 0 → 0 < nozzleDiameter → step ≤ 1.6 * nozzleDiameter) := by
  have hcomm : (1.6 : K) * nozzleDiameter = nozzleDiameter * 1.6 := mul_comm _ _
  refine ⟨?_, ?_, ?_⟩
  · intro h fuel hf
    obtain ⟨f, rfl⟩ : ∃ f, fuel = f + 1 := ⟨fuel - 1, by omega⟩
    rw [hcomm] at h
    unfold layerHeights layerHeightsLoop
    rw [if_neg (not_le.mpr h)]
  · intro h0 hle
    constructor
    · intro k
      have hk : (1 : K) ≤ ((k + 1 : Nat) : K) := by
        rw [Nat.one_le_cast]; omega
      have : ((k + 1 : Nat) : K) * step ≤ step := by nlinarith
      linarith
    · intro fuel
      rw [hcomm] at hle
      exact layerHeightsLoop_diverges step nozzleDiameter h0 fuel step [] hle
  · intro h0 hd
    have : (0 : K) < 1.6 * nozzleDiameter := by positivity
    linarith

/-- Witness of C13 on `ℚ`: `step = -1`, `nozzleDiameter = 1` never exits, and
`step = 2`, `nozzleDiameter = 1` gives the empty sequence. -/
theorem layerHeights_degenerate_step_witness :
    (∀ fuel : Nat, layerHeights fuel (-1 : ℚ) 1 = none) ∧
    layerHeights 1 (2 : ℚ) 1 = some [] :=
  ⟨((layerHeights_degenerate_step (-1 : ℚ) 1).2.1 (by norm_num) (by norm_num)).2,
   (layerHeights_degenerate_step (2 : ℚ) 1).1 (by norm_num) 1 (le_refl 1)⟩

/-! ### The concrete scenario -/

/-- Bounds on the ideal line width of the default nozzle at the first swept
layer height: it is `2 * sqrt 0.4`, between `1.2648` and `1.26496`. -/
theorem idealLineWidth_default_first :
    calculateIdealLineWidth Real.sqrt (0.4 : ℝ) 0.04 = 2 * Real.sqrt 0.4 ∧
    1.2648 < calculateIdealLineWidth Real.sqrt (0.4 : ℝ) 0.04 ∧
    calculateIdealLineWidth Real.sqrt (0.4 : ℝ) 0.04 < 1.26496 := by
  have he : calculateIdealLineWidth Real.sqrt (0.4 : ℝ) 0.04 = 2 * Real.sqrt 0.4 := by
    unfold calculateIdealLineWidth
    norm_num
  have hlo : (0.6324 : ℝ) < Real.sqrt 0.4 := by
    rw [Real.lt_sqrt (by norm_num)]; norm_num
  have hhi : Real.sqrt 0.4 < (0.63248 : ℝ) := by
    rw [Real.sqrt_lt' (by norm_num)]; norm_num
  refine ⟨he, ?_, ?_⟩
  · rw [he]; linarith
  · rw [he]; linarith

/-- C12: over the reals, for `nozzleDiameter = 0.4`, `nozzleFlatSize = 0.6`,
`step = 0.04`, the first swept layer height is `0.04`; there
`minLineWidth = 0.44`, `maxLineWidth = 0.64`, `idealLineWidth = 2 * sqrt 0.4`
lies between `1.2645` and `1.2655` and exceeds `maxLineWidth`, so
`determineLineWidthSafety` returns DANGER, `lineWidthSafetyColor` is `#f00`,
`notes` takes its over-spec branch, and `percentOverSpec` lies between `97.55`
and `97.65`. -/
theorem default_first_record :
    (∃ rest : List ℝ, ∀ fuel : Nat, 17 ≤ fuel →
      layerHeights fuel (0.04 : ℝ) 0.4 = some (0.04 :: rest)) ∧
    minLineWidth (0.04 : ℝ) 0.4 = 0.44 ∧
    maxLineWidth (0.04 : ℝ) 0.6 = 0.64 ∧
    calculateIdealLineWidth Real.sqrt (0.4 : ℝ) 0.04 = 2 * Real.sqrt 0.4 ∧
    1.2645 < calculateIdealLineWidth Real.sqrt (0.4 : ℝ) 0.04 ∧
    calculateIdealLineWidth Real.sqrt (0.4 : ℝ) 0.04 < 1.2655 ∧
    calculateIdealLineWidth Real.sqrt (0.4 : ℝ) 0.04 > maxLineWidth (0.04 : ℝ) 0.6 ∧
    determineLineWidthSafety (calculateIdealLineWidth Real.sqrt (0.4 : ℝ) 0.04) 0.04 0.4 0.6
      = "danger" ∧
    lineWidthSafetyColor (calculateIdealLineWidth Real.sqrt (0.4 : ℝ) 0.04) 0.04 0.4 0.6
      = "#f00" ∧
    (∀ roundTo : ℝ → Nat → String,
      notes roundTo (calculateIdealLineWidth Real.sqrt (0.4 : ℝ) 0.04) 0.04 0.4 0.6
        = overSpecNote (roundTo (percentOverSpec
            (calculateIdealLineWidth Real.sqrt (0.4 : ℝ) 0.04) (maxLineWidth 0.04 0.6)) 2)) ∧
    97.55 < percentOverSpec (calculateIdealLineWidth Real.sqrt (0.4 : ℝ) 0.04)
      (maxLineWidth 0.04 0.6) ∧
    percentOverSpec (calculateIdealLineWidth Real.sqrt (0.4 : ℝ) 0.04)
      (maxLineWidth 0.04 0.6) < 97.65 := by
  obtain ⟨he, hlo, hhi⟩ := idealLineWidth_default_first
  have hmin : minLineWidth (0.04 : ℝ) 0.4 = 0.44 := by unfold minLineWidth; norm_num
  have hmax : maxLineWidth (0.04 : ℝ) 0.6 = 0.64 := by unfold maxLineWidth; norm_num
  have hgt : calculateIdealLineWidth Real.sqrt (0.4 : ℝ) 0.04 > maxLineWidth (0.04 : ℝ) 0.6 := by
    rw [hmax]; linarith
  have hdanger : determineLineWidthSafety
      (calculateIdealLineWidth Real.sqrt (0.4 : ℝ) 0.04) 0.04 0.4 0.6 = "danger" := by
    unfold determineLineWidthSafety
    rw [if_pos (Or.inr hgt)]; rfl
  refine ⟨?_, hmin, hmax, he, by linarith, by linarith, hgt, hdanger, ?_, ?_, ?_, ?_⟩
  · have hfloor : ⌊(0.4 : ℝ) * 1.6 / 0.04⌋₊ = 16 := by
      have h16 : (0.4 : ℝ) * 1.6 / 0.04 = ((16 : Nat) : ℝ) := by norm_num
      rw [h16, Nat.floor_natCast]
    refine ⟨(List.range 15).map (fun k => (((0 + (k + 1) + 1 : Nat)) : ℝ) * 0.04), ?_⟩
    intro fuel hf
    have h := layerHeightsLoop_run (0.04 : ℝ) 0.4 (by norm_num) (by norm_num)
      16 0 fuel [] (by rw [hfloor]) (by omega)
    unfold layerHeights
    simp only [Nat.zero_add, Nat.cast_one, one_mul, List.nil_append] at h
    rw [h, List.range_succ_eq_map, List.map_cons, List.map_map]
    simp
  · unfold lineWidthSafetyColor
    rw [hdanger]; decide
  · intro roundTo
    unfold notes
    rw [if_pos hgt]
  · unfold percentOverSpec
    rw [hmax]
    have h64 : calculateIdealLineWidth Real.sqrt (0.4 : ℝ) 0.04 / 0.64
        = calculateIdealLineWidth Real.sqrt (0.4 : ℝ) 0.04 * (25 / 16) := by
      norm_num [div_eq_mul_inv]
    rw [h64]; linarith
  · unfold percentOverSpec
    rw [hmax]
    have h64 : calculateIdealLineWidth Real.sqrt (0.4 : ℝ) 0.04 / 0.64
        = calculateIdealLineWidth Real.sqrt (0.4 : ℝ) 0.04 * (25 / 16) := by
      norm_num [div_eq_mul_inv]
    rw [h64]; linarith

/-- Witness of C12: the over-spec note of the first record, with a `roundTo`
that prints nothing. -/
theorem default_first_record_witness :
    notes (fun _ _ => "") (calculateIdealLineWidth Real.sqrt (0.4 : ℝ) 0.04) 0.04 0.4 0.6
      = overSpecNote "" :=
  default_first_record.2.2.2.2.2.2.2.2.2.1 (fun _ _ => "")

/-! ### Monotonicity of the gradient digit -/

/-- C15: for fixed `layerHeight` and `nozzleDiameter` with `minW > 0`, in the
soft band: on the red side (`0.5 * minW ≤ lineWidth < 0.75 * minW`) the result
is `#f`, then the digit `g = round((1 - shift) * 15)`, then `0`, where `g` is
non-decreasing in `lineWidth` and is `0` at `lineWidth = 0.5 * minW`; on the
green side (`0.75 * minW < lineWidth < minW`) the result is `#`, then the digit
`r = round((1 + shift) * 15)`, then `f0`, where `r` is non-increasing in
`lineWidth`. -/
theorem softBand_digit_monotone [FloorRing K] (layerHeight nozzleDiameter : K)
    (hm : 0 < layerHeight + nozzleDiameter) :
    (∀ lineWidth nozzleFlatSize : K,
      0.5 * (layerHeight + nozzleDiameter) ≤ lineWidth →
      lineWidth < 0.75 * (layerHeight + nozzleDiameter) →
      lineWidth ≤ layerHeight + nozzleFlatSize →
      determineLineWidthSafety lineWidth layerHeight nozzleDiameter nozzleFlatSize
        = "#f" ++ toString16
            (Math.round ((1 - shift lineWidth layerHeight nozzleDiameter) * 15)) ++ "0") ∧
    (∀ w1 w2 : K, 0.5 * (layerHeight + nozzleDiameter) ≤ w1 → w1 ≤ w2 →
      w2 < 0.75 * (layerHeight + nozzleDiameter) →
      Math.round ((1 - shift w1 layerHeight nozzleDiameter) * 15)
        ≤ Math.round ((1 - shift w2 layerHeight nozzleDiameter) * 15)) ∧
    Math.round
      ((1 - shift (0.5 * (layerHeight + nozzleDiameter)) layerHeight nozzleDiameter) * 15)
        = 0 ∧
    (∀ lineWidth nozzleFlatSize : K,
      0.75 * (layerHeight + nozzleDiameter) < lineWidth →
      lineWidth < layerHeight + nozzleDiameter →
      lineWidth ≤ layerHeight + nozzleFlatSize →
      determineLineWidthSafety lineWidth layerHeight nozzleDiameter nozzleFlatSize
        = "#" ++ toString16
            (Math.round ((1 + shift lineWidth layerHeight nozzleDiameter) * 15)) ++ "f0") ∧
    (∀ w1 w2 : K, 0.75 * (layerHeight + nozzleDiameter) < w1 → w1 ≤ w2 →
      w2 < layerHeight + nozzleDiameter →
      Math.round ((1 + shift w2 layerHeight nozzleDiameter) * 15)
        ≤ Math.round ((1 + shift w1 layerHeight nozzleDiameter) * 15)) := by
  have hm2 : 0 < minLineWidth layerHeight nozzleDiameter := hm
  have hs : ∀ w : K, shift w layerHeight nozzleDiameter
      = 3 - 4 * w / (layerHeight + nozzleDiameter) := fun w => shift_eq hm2
  have hdiv : ∀ w1 w2 : K, w1 ≤ w2 →
      w1 / (layerHeight + nozzleDiameter) ≤ w2 / (layerHeight + nozzleDiameter) :=
    fun w1 w2 h => div_le_div_of_nonneg_right h (le_of_lt hm)
  have h34 : (0.5 : K) < 0.75 := by norm_num
  refine ⟨?_, ?_, ?_, ?_, ?_⟩
  · intro w flat h1 h2 h3
    have hlt : w < layerHeight + nozzleDiameter := by
      have : 0.75 * (layerHeight + nozzleDiameter) < layerHeight + nozzleDiameter := by
        norm_num; linarith
      linarith
    have hb : inSoftBand w layerHeight nozzleDiameter flat := by
      refine ⟨fun h => ?_, hlt⟩
      rcases h with h | h
      · exact absurd h1 (not_le.mpr h)
      · exact absurd h3 (not_le.mpr h)
    have hpos : shift w layerHeight nozzleDiameter > 0 := by
      rw [hs, gt_iff_lt, sub_pos, div_lt_iff₀ hm]
      norm_num at h2; linarith
    rw [determineLineWidthSafety_softBand hb, if_pos hpos]
    unfold shiftHex shiftHexValue
    rw [abs_of_pos hpos]
  · intro w1 w2 _ h12 _
    unfold Math.round
    apply Int.floor_mono
    rw [hs w1, hs w2]
    have := hdiv w1 w2 h12
    rw [mul_div_assoc, mul_div_assoc]
    linarith
  · unfold Math.round
    rw [hs, Int.floor_eq_zero_iff]
    have hne : layerHeight + nozzleDiameter ≠ 0 := ne_of_gt hm
    have : 4 * (0.5 * (layerHeight + nozzleDiameter)) / (layerHeight + nozzleDiameter) = 2 := by
      field_simp; ring
    rw [this]
    norm_num
  · intro w flat h1 h2 h3
    have hb : inSoftBand w layerHeight nozzleDiameter flat := by
      refine ⟨fun h => ?_, h2⟩
      rcases h with h | h
      · have : 0.5 * (layerHeight + nozzleDiameter) < 0.75 * (layerHeight + nozzleDiameter) := by
          norm_num; linarith
        have h' : w < 0.5 * (layerHeight + nozzleDiameter) := h
        linarith
      · exact absurd h3 (not_le.mpr h)
    have hneg : shift w layerHeight nozzleDiameter < 0 := by
      rw [hs, sub_neg, lt_div_iff₀ hm]
      norm_num at h1; linarith
    rw [determineLineWidthSafety_softBand hb, if_neg (not_lt.mpr (le_of_lt hneg)),
      if_pos hneg]
    unfold shiftHex shiftHexValue
    rw [abs_of_neg hneg, sub_neg_eq_add]
  · intro w1 w2 _ h12 _
    unfold Math.round
    apply Int.floor_mono
    rw [hs w1, hs w2]
    have := hdiv w1 w2 h12
    rw [mul_div_assoc, mul_div_assoc]
    linarith

/-- Witness of C15 on `ℚ`, with `minW = 2`: the red-side input
`lineWidth = 1.2` has the digit `round(0.4 * 15) = 6`. -/
theorem softBand_digit_monotone_witness :
    determineLineWidthSafety (1.2 : ℚ) 1 1 2
      = "#f" ++ toString16 (Math.round ((1 - shift (1.2 : ℚ) 1 1) * 15)) ++ "0" :=
  (softBand_digit_monotone (1 : ℚ) 1 (by norm_num)).1 1.2 2
    (by norm_num) (by norm_num) (by norm_num)

/-! ### Notes against the classifier -/

theorem noteTag_of_isOverSpecNote {s : String} (h : isOverSpecNote s) :
    noteTag s = some 't' := by
  obtain ⟨p, rfl⟩ := h
  exact noteTag_overSpecNote p

theorem noteTag_of_isSevereUnderSpecNote {s : String} (h : isSevereUnderSpecNote s) :
    noteTag s = some 'r' := by
  obtain ⟨p, rfl⟩ := h
  exact noteTag_severeUnderSpecNote p

theorem noteTag_of_isMildUnderSpecNote {s : String} (h : isMildUnderSpecNote s) :
    noteTag s = some 'h' := by
  obtain ⟨p, rfl⟩ := h
  exact noteTag_mildUnderSpecNote p

/-- The branch that `notes` takes, read off the three comparisons. -/
theorem notes_branches (roundTo : K → Nat → String)
    (idealLineWidth layerHeight nozzleDiameter nozzleFlatSize : K) :
    (idealLineWidth > maxLineWidth layerHeight nozzleFlatSize →
      isOverSpecNote
        (notes roundTo idealLineWidth layerHeight nozzleDiameter nozzleFlatSize)) ∧
    (¬ idealLineWidth > maxLineWidth layerHeight nozzleFlatSize →
      idealLineWidth < 0.5 * minLineWidth layerHeight nozzleDiameter →
      isSevereUnderSpecNote
        (notes roundTo idealLineWidth layerHeight nozzleDiameter nozzleFlatSize)) ∧
    (inSoftBand idealLineWidth layerHeight nozzleDiameter nozzleFlatSize →
      isMildUnderSpecNote
        (notes roundTo idealLineWidth layerHeight nozzleDiameter nozzleFlatSize)) ∧
    (¬ (idealLineWidth < 0.5 * minLineWidth layerHeight nozzleDiameter
          ∨ idealLineWidth > maxLineWidth layerHeight nozzleFlatSize) →
      ¬ idealLineWidth < minLineWidth layerHeight nozzleDiameter →
      notes roundTo idealLineWidth layerHeight nozzleDiameter nozzleFlatSize
        = withinSpecNote) := by
  refine ⟨?_, ?_, ?_, ?_⟩
  · intro h
    unfold notes
    rw [if_pos h]
    exact ⟨_, rfl⟩
  · intro h1 h2
    unfold notes
    rw [if_neg h1, if_pos h2]
    exact ⟨_, rfl⟩
  · intro hb
    unfold notes
    rw [if_neg (fun h => hb.1 (Or.inr h)), if_neg (fun h => hb.1 (Or.inl h)), if_pos hb.2]
    exact ⟨_, rfl⟩
  · intro hD hS
    unfold notes
    rw [if_neg (fun h => hD (Or.inr h)), if_neg (fun h => hD (Or.inl h)), if_neg hS]

/-- C16: for `nozzleFlatSize < nozzleDiameter` and every layer height, the
inputs are accepted and `maxLineWidth < minLineWidth`; for every line width
`determineLineWidthSafety` does not return SAFE (each `lineWidth ≥
minLineWidth` is classified DANGER), and the note is never the within-spec
note. -/
theorem invertedGeometry_no_safe_window [FloorRing K]
    (layerHeight nozzleDiameter nozzleFlatSize : K)
    (hinv : nozzleFlatSize < nozzleDiameter) :
    maxLineWidth layerHeight nozzleFlatSize < minLineWidth layerHeight nozzleDiameter ∧
    (∀ lineWidth : K,
      determineLineWidthSafety lineWidth layerHeight nozzleDiameter nozzleFlatSize
        ≠ "safe") ∧
    (∀ lineWidth : K, lineWidth ≥ minLineWidth layerHeight nozzleDiameter →
      determineLineWidthSafety lineWidth layerHeight nozzleDiameter nozzleFlatSize
        = "danger") ∧
    (∀ (roundTo : K → Nat → String) (idealLineWidth : K),
      notes roundTo idealLineWidth layerHeight nozzleDiameter nozzleFlatSize
        ≠ withinSpecNote) := by
  have hlt : maxLineWidth layerHeight nozzleFlatSize
      < minLineWidth layerHeight nozzleDiameter := by
    unfold maxLineWidth minLineWidth; linarith
  have hdanger : ∀ lineWidth : K, lineWidth ≥ minLineWidth layerHeight nozzleDiameter →
      determineLineWidthSafety lineWidth layerHeight nozzleDiameter nozzleFlatSize
        = "danger" := by
    intro w hw
    unfold determineLineWidthSafety
    rw [if_pos (Or.inr (lt_of_lt_of_le hlt hw))]; rfl
  refine ⟨hlt, ?_, hdanger, ?_⟩
  · intro w
    by_cases hw : w < minLineWidth layerHeight nozzleDiameter
    · by_cases hD : w < 0.5 * minLineWidth layerHeight nozzleDiameter
          ∨ w > maxLineWidth layerHeight nozzleFlatSize
      · unfold determineLineWidthSafety
        rw [if_pos hD]; decide
      · exact (isColorString_not_category _
          (determineLineWidthSafety_softBand_isColorString ⟨hD, hw⟩)).1
    · rw [hdanger w (not_lt.mp hw)]; decide
  · intro roundTo w hn
    have hbr := notes_branches roundTo w layerHeight nozzleDiameter nozzleFlatSize
    have htag : noteTag (notes roundTo w layerHeight nozzleDiameter nozzleFlatSize)
        = some 'y' := by rw [hn]; exact noteTag_withinSpecNote
    by_cases h1 : w > maxLineWidth layerHeight nozzleFlatSize
    · rw [noteTag_of_isOverSpecNote (hbr.1 h1)] at htag
      exact absurd htag (by decide)
    · by_cases h2 : w < 0.5 * minLineWidth layerHeight nozzleDiameter
      · rw [noteTag_of_isSevereUnderSpecNote (hbr.2.1 h1 h2)] at htag
        exact absurd htag (by decide)
      · by_cases h3 : w < minLineWidth layerHeight nozzleDiameter
        · have hb : inSoftBand w layerHeight nozzleDiameter nozzleFlatSize :=
            ⟨fun h => h.elim h2 h1, h3⟩
          rw [noteTag_of_isMildUnderSpecNote (hbr.2.2.1 hb)] at htag
          exact absurd htag (by decide)
        · exact absurd (lt_of_lt_of_le hlt (not_lt.mp h3)) h1

/-- Witness of C16 on `ℚ`: `nozzleFlatSize = 0.3 < nozzleDiameter = 0.4`,
`layerHeight = 0.2`, and the line width `0.6 = minLineWidth`. -/
theorem invertedGeometry_no_safe_window_witness :
    maxLineWidth (0.2 : ℚ) 0.3 < minLineWidth (0.2 : ℚ) 0.4 ∧
    determineLineWidthSafety (0.6 : ℚ) 0.2 0.4 0.3 = "danger" :=
  have h := invertedGeometry_no_safe_window (0.2 : ℚ) 0.4 0.3 (by norm_num)
  ⟨h.1, h.2.2.1 0.6 (by unfold minLineWidth; norm_num)⟩

/-- C17: for every ideal line width, layer height, nozzle diameter and nozzle
flat size, the note is the over-spec or the severe under-spec note iff
`determineLineWidthSafety` returns DANGER, it is the mild under-spec note iff
`determineLineWidthSafety` returns a soft-band colour string, and it is the
within-spec note iff `determineLineWidthSafety` returns SAFE. -/
theorem notes_agree_with_classifier [FloorRing K] (roundTo : K → Nat → String)
    (idealLineWidth layerHeight nozzleDiameter nozzleFlatSize : K) :
    ((isOverSpecNote (notes roundTo idealLineWidth layerHeight nozzleDiameter nozzleFlatSize)
        ∨ isSevereUnderSpecNote
            (notes roundTo idealLineWidth layerHeight nozzleDiameter nozzleFlatSize))
      ↔ determineLineWidthSafety idealLineWidth layerHeight nozzleDiameter nozzleFlatSize
          = "danger") ∧
    (isMildUnderSpecNote (notes roundTo idealLineWidth layerHeight nozzleDiameter nozzleFlatSize)
      ↔ (inSoftBand idealLineWidth layerHeight nozzleDiameter nozzleFlatSize ∧
          isColorString
            (determineLineWidthSafety idealLineWidth layerHeight nozzleDiameter
              nozzleFlatSize))) ∧
    (isMildUnderSpecNote (notes roundTo idealLineWidth layerHeight nozzleDiameter nozzleFlatSize)
      ↔ isColorString
          (determineLineWidthSafety idealLineWidth layerHeight nozzleDiameter
            nozzleFlatSize)) ∧
    (notes roundTo idealLineWidth layerHeight nozzleDiameter nozzleFlatSize = withinSpecNote
      ↔ determineLineWidthSafety idealLineWidth layerHeight nozzleDiameter nozzleFlatSize
          = "safe") := by
  have hbr := notes_branches roundTo idealLineWidth layerHeight nozzleDiameter nozzleFlatSize
  have hy := noteTag_withinSpecNote
  by_cases hD : idealLineWidth < 0.5 * minLineWidth layerHeight nozzleDiameter
      ∨ idealLineWidth > maxLineWidth layerHeight nozzleFlatSize
  · have hres : determineLineWidthSafety idealLineWidth layerHeight nozzleDiameter
        nozzleFlatSize = "danger" := by
      unfold determineLineWidthSafety
      rw [if_pos hD]; rfl
    have hnb : ¬ inSoftBand idealLineWidth layerHeight nozzleDiameter nozzleFlatSize :=
      fun hb => hb.1 hD
    have hnote : isOverSpecNote
          (notes roundTo idealLineWidth layerHeight nozzleDiameter nozzleFlatSize)
        ∨ isSevereUnderSpecNote
          (notes roundTo idealLineWidth layerHeight nozzleDiameter nozzleFlatSize) := by
      by_cases h1 : idealLineWidth > maxLineWidth layerHeight nozzleFlatSize
      · exact Or.inl (hbr.1 h1)
      · exact Or.inr (hbr.2.1 h1 (hD.resolve_right h1))
    have htag : noteTag (notes roundTo idealLineWidth layerHeight nozzleDiameter
          nozzleFlatSize) = some 't'
        ∨ noteTag (notes roundTo idealLineWidth layerHeight nozzleDiameter
          nozzleFlatSize) = some 'r' :=
      hnote.imp noteTag_of_isOverSpecNote noteTag_of_isSevereUnderSpecNote
    have hnm : ¬ isMildUnderSpecNote
        (notes roundTo idealLineWidth layerHeight nozzleDiameter nozzleFlatSize) := by
      intro h
      have h' := noteTag_of_isMildUnderSpecNote h
      rcases htag with t | t <;> (rw [t] at h'; exact absurd h' (by decide))
    have hnw : notes roundTo idealLineWidth layerHeight nozzleDiameter nozzleFlatSize
        ≠ withinSpecNote := by
      intro h
      rw [h, hy] at htag
      rcases htag with t | t <;> exact absurd t (by decide)
    rw [hres]
    refine ⟨⟨fun _ => rfl, fun _ => hnote⟩, ⟨fun h => absurd h hnm, fun h => absurd h.1 hnb⟩,
      ⟨fun h => absurd h hnm, fun h => absurd h (by decide)⟩,
      ⟨fun h => absurd h hnw, fun h => absurd h (by decide)⟩⟩
  · by_cases hS : idealLineWidth < minLineWidth layerHeight nozzleDiameter
    · have hb : inSoftBand idealLineWidth layerHeight nozzleDiameter nozzleFlatSize :=
        ⟨hD, hS⟩
      have hc := determineLineWidthSafety_softBand_isColorString hb
      have hn := isColorString_not_category _ hc
      have hnote := hbr.2.2.1 hb
      have htag := noteTag_of_isMildUnderSpecNote hnote
      refine ⟨⟨fun h => ?_, fun h => absurd h hn.2.2⟩, ⟨fun _ => ⟨hb, hc⟩, fun _ => hnote⟩,
        ⟨fun _ => hc, fun _ => hnote⟩, ⟨fun h => ?_, fun h => absurd h hn.1⟩⟩
      · rcases h with h | h
        · rw [noteTag_of_isOverSpecNote h] at htag; exact absurd htag (by decide)
        · rw [noteTag_of_isSevereUnderSpecNote h] at htag; exact absurd htag (by decide)
      · rw [h, hy] at htag; exact absurd htag (by decide)
    · have hres : determineLineWidthSafety idealLineWidth layerHeight nozzleDiameter
          nozzleFlatSize = "safe" := by
        unfold determineLineWidthSafety
        rw [if_neg hD, if_neg hS]; rfl
      have hnote := hbr.2.2.2 hD hS
      have hnb : ¬ inSoftBand idealLineWidth layerHeight nozzleDiameter nozzleFlatSize :=
        fun hb => hS hb.2
      rw [hres, hnote]
      refine ⟨⟨fun h => ?_, fun h => absurd h (by decide)⟩,
        ⟨fun h => ?_, fun h => absurd h.1 hnb⟩,
        ⟨fun h => ?_, fun h => absurd h (by decide)⟩, ⟨fun _ => rfl, fun _ => rfl⟩⟩
      · rcases h with h | h
        · have t := noteTag_of_isOverSpecNote h
          rw [hy] at t; exact absurd t (by decide)
        · have t := noteTag_of_isSevereUnderSpecNote h
          rw [hy] at t; exact absurd t (by decide)
      · have t := noteTag_of_isMildUnderSpecNote h
        rw [hy] at t; exact absurd t (by decide)
      · have t := noteTag_of_isMildUnderSpecNote h
        rw [hy] at t; exact absurd t (by decide)

/-- Witness of C17 on `ℚ`: `idealLineWidth = 2.5`, `layerHeight =
nozzleDiameter = 1`, `nozzleFlatSize = 2` is within spec and SAFE. -/
theorem notes_agree_with_classifier_witness :
    notes (fun _ _ => "") (2.5 : ℚ) 1 1 2 = withinSpecNote :=
  (notes_agree_with_classifier (fun _ _ => "") (2.5 : ℚ) 1 1 2).2.2.2.mpr
    (by unfold determineLineWidthSafety minLineWidth maxLineWidth; norm_num; rfl)

/-! ### Layer heights at or above the nozzle diameter -/

theorem worstSafetyDetermination_danger_right (L : Option String) :
    worstSafetyDetermination L "#f00" = some "#f00" := by
  unfold worstSafetyDetermination
  rw [if_pos (Or.inr (by decide))]
  decide

/-- At the lower edge of the soft band the gradient colour is `#f00`. -/
theorem determineLineWidthSafety_lower_edge [FloorRing K]
    (layerHeight nozzleDiameter nozzleFlatSize : K)
    (hm : 0 < minLineWidth layerHeight nozzleDiameter)
    (hmax : 0.5 * minLineWidth layerHeight nozzleDiameter
      ≤ maxLineWidth layerHeight nozzleFlatSize) :
    determineLineWidthSafety (0.5 * minLineWidth layerHeight nozzleDiameter)
      layerHeight nozzleDiameter nozzleFlatSize = "#f00" := by
  have hne : minLineWidth layerHeight nozzleDiameter ≠ 0 := ne_of_gt hm
  have hb : inSoftBand (0.5 * minLineWidth layerHeight nozzleDiameter)
      layerHeight nozzleDiameter nozzleFlatSize := by
    refine ⟨fun h => ?_, ?_⟩
    · rcases h with h | h
      · exact absurd h (lt_irrefl _)
      · exact absurd hmax (not_le.mpr h)
    · norm_num; linarith
  have hs1 : shift (0.5 * minLineWidth layerHeight nozzleDiameter)
      layerHeight nozzleDiameter = 1 := by
    rw [shift_eq hm]; field_simp; ring
  have hv : shiftHex (0.5 * minLineWidth layerHeight nozzleDiameter)
      layerHeight nozzleDiameter = "0" := by
    unfold shiftHex shiftHexValue Math.round
    rw [hs1]
    have : ⌊(1 - |(1 : K)|) * 15 + 1 / 2⌋ = 0 := by
      rw [Int.floor_eq_zero_iff]; norm_num
    rw [this]; decide
  rw [determineLineWidthSafety_softBand hb, hs1, hv]
  simp

/-- C18: over the reals, for `nozzleDiameter > 0`, `nozzleFlatSize ≥ 0` and
`layerHeight ≥ nozzleDiameter`, the ideal line width is at most
`0.5 * (layerHeight + nozzleDiameter)`, the resolved `lineWidthSafetyColor` is
`#f00`, and so the worst-case colour is `#f00` whatever the layer-height colour
is (also when the layer-height verdict is only WARNING). -/
theorem layerHeight_ge_nozzleDiameter_danger
    (nozzleDiameter nozzleFlatSize layerHeight : ℝ)
    (hd : 0 < nozzleDiameter) (hf : 0 ≤ nozzleFlatSize) (hh : nozzleDiameter ≤ layerHeight) :
    calculateIdealLineWidth Real.sqrt nozzleDiameter layerHeight
      ≤ 0.5 * (layerHeight + nozzleDiameter) ∧
    lineWidthSafetyColor (calculateIdealLineWidth Real.sqrt nozzleDiameter layerHeight)
      layerHeight nozzleDiameter nozzleFlatSize = "#f00" ∧
    (∀ L : Option String,
      worstSafetyDetermination L
        (lineWidthSafetyColor (calculateIdealLineWidth Real.sqrt nozzleDiameter layerHeight)
          layerHeight nozzleDiameter nozzleFlatSize) = some "#f00") ∧
    worstSafetyDetermination (layerHeightSafetyColor layerHeight nozzleDiameter)
      (lineWidthSafetyColor (calculateIdealLineWidth Real.sqrt nozzleDiameter layerHeight)
        layerHeight nozzleDiameter nozzleFlatSize) = some "#f00" := by
  have hh0 : 0 < layerHeight := lt_of_lt_of_le hd hh
  have hratio : nozzleDiameter / layerHeight ≤ 1 := (div_le_one hh0).mpr hh
  have hsq : 0 ≤ (nozzleDiameter / 2) ^ 2 := by positivity
  have hroot : Real.sqrt (nozzleDiameter / layerHeight * (nozzleDiameter / 2) ^ 2)
      ≤ nozzleDiameter / 2 := by
    rw [Real.sqrt_le_left (by positivity)]
    nlinarith
  have hideal : calculateIdealLineWidth Real.sqrt nozzleDiameter layerHeight
      ≤ nozzleDiameter := by
    unfold calculateIdealLineWidth; linarith
  have hhalf : calculateIdealLineWidth Real.sqrt nozzleDiameter layerHeight
      ≤ 0.5 * (layerHeight + nozzleDiameter) := by
    norm_num; linarith
  have hcolor : lineWidthSafetyColor
      (calculateIdealLineWidth Real.sqrt nozzleDiameter layerHeight)
      layerHeight nozzleDiameter nozzleFlatSize = "#f00" := by
    unfold lineWidthSafetyColor
    rcases lt_or_eq_of_le hhalf with hlt | heq
    · have : determineLineWidthSafety
          (calculateIdealLineWidth Real.sqrt nozzleDiameter layerHeight)
          layerHeight nozzleDiameter nozzleFlatSize = "danger" := by
        have hlt2 : calculateIdealLineWidth Real.sqrt nozzleDiameter layerHeight
            < 0.5 * minLineWidth layerHeight nozzleDiameter := hlt
        unfold determineLineWidthSafety
        rw [if_pos (Or.inl hlt2)]; rfl
      rw [this]; decide
    · have hm : 0 < minLineWidth layerHeight nozzleDiameter := by
        unfold minLineWidth; linarith
      have hmax : 0.5 * minLineWidth layerHeight nozzleDiameter
          ≤ maxLineWidth layerHeight nozzleFlatSize := by
        have e : 0.5 * minLineWidth layerHeight nozzleDiameter
            = calculateIdealLineWidth Real.sqrt nozzleDiameter layerHeight := heq.symm
        rw [e]
        unfold maxLineWidth; linarith
      have e2 : calculateIdealLineWidth Real.sqrt nozzleDiameter layerHeight
          = 0.5 * minLineWidth layerHeight nozzleDiameter := heq
      rw [e2, determineLineWidthSafety_lower_edge layerHeight nozzleDiameter nozzleFlatSize
        hm hmax]
      decide
  refine ⟨hhalf, hcolor, ?_, ?_⟩
  · intro L
    rw [hcolor]; exact worstSafetyDetermination_danger_right L
  · rw [hcolor]; exact worstSafetyDetermination_danger_right _

/-- Witness of C18 at `nozzleDiameter = 0.4`, `nozzleFlatSize = 0.6`,
`layerHeight = 0.4`, where the layer-height verdict is WARNING (ratio `1`) and
the ideal line width is exactly `0.5 * minLineWidth`. -/
theorem layerHeight_ge_nozzleDiameter_danger_witness :
    worstSafetyDetermination (layerHeightSafetyColor (0.4 : ℝ) 0.4)
      (lineWidthSafetyColor (calculateIdealLineWidth Real.sqrt (0.4 : ℝ) 0.4)
        0.4 0.4 0.6) = some "#f00" :=
  (layerHeight_ge_nozzleDiameter_danger 0.4 0.6 0.4 (by norm_num) (by norm_num)
    (le_refl _)).2.2.2

/-! ### The sweep with rounded operations -/

/-- With the identity as rounding, the rounded loop is the exact loop. -/
theorem layerHeightsLoopRounded_id (step d : K) :
    ∀ (fuel : Nat) (i : K) (acc : List K),
      layerHeightsLoopRounded id step d fuel i acc = layerHeightsLoop step d fuel i acc := by
  intro fuel
  induction fuel with
  | zero => intro i acc; rfl
  | succ f ih =>
    intro i acc
    unfold layerHeightsLoopRounded layerHeightsLoop
    simp only [id]
    rw [ih]

/-- A run of the rounded loop from `i = runningSum j` in which the next `m`
running sums pass the loop condition and the one after them fails it: the loop
exits and has appended exactly those `m` running sums. -/
theorem layerHeightsLoopRounded_run (round : K → K) (step d : K) :
    ∀ (m j fuel : Nat) (acc : List K),
      (∀ k : Nat, k < m → runningSum round step (j + k) ≤ round (d * round 1.6)) →
      round (d * round 1.6) < runningSum round step (j + m) →
      m + 1 ≤ fuel →
      layerHeightsLoopRounded round step d fuel (runningSum round step j) acc
        = some (acc ++ (List.range m).map (fun k => runningSum round step (j + k))) := by
  intro m
  induction m with
  | zero =>
    intro j fuel acc _ hgt hf
    obtain ⟨f, rfl⟩ : ∃ f, fuel = f + 1 := ⟨fuel - 1, by omega⟩
    have hgt0 : round (d * round 1.6) < runningSum round step j := hgt
    unfold layerHeightsLoopRounded
    rw [if_neg (not_le.mpr hgt0)]
    simp
  | succ m ih =>
    intro j fuel acc hle hgt hf
    obtain ⟨f, rfl⟩ : ∃ f, fuel = f + 1 := ⟨fuel - 1, by omega⟩
    have h0 : runningSum round step j ≤ round (d * round 1.6) := by
      have := hle 0 (by omega)
      rwa [Nat.add_zero] at this
    unfold layerHeightsLoopRounded
    rw [if_pos h0]
    have hnext : round (runningSum round step j + step) = runningSum round step (j + 1) := rfl
    have hle2 : ∀ k : Nat, k < m →
        runningSum round step (j + 1 + k) ≤ round (d * round 1.6) := by
      intro k hk
      have := hle (k + 1) (by omega)
      rwa [show j + (k + 1) = j + 1 + k by omega] at this
    have hgt2 : round (d * round 1.6) < runningSum round step (j + 1 + m) := by
      rwa [show j + (m + 1) = j + 1 + m by omega] at hgt
    rw [hnext, ih (j + 1) f _ hle2 hgt2 (by omega), List.range_succ_eq_map,
      List.map_cons, List.map_map, List.append_assoc]
    congr 2
    simp only [List.singleton_append, Nat.add_zero, List.cons.injEq, true_and]
    apply List.map_congr_left
    intro k _
    simp only [Function.comp_apply]
    congr 1
    omega

/-- A run of the rounded loop in which every running sum passes the loop
condition never exits: every amount of fuel runs out. -/
theorem layerHeightsLoopRounded_diverges (round : K → K) (step d : K)
    (hall : ∀ k : Nat, runningSum round step k ≤ round (d * round 1.6)) :
    ∀ (fuel j : Nat) (acc : List K),
      layerHeightsLoopRounded round step d fuel (runningSum round step j) acc = none := by
  intro fuel
  induction fuel with
  | zero => intro j acc; rfl
  | succ f ih =>
    intro j acc
    unfold layerHeightsLoopRounded
    rw [if_pos (hall j)]
    exact ih (j + 1) _

/-! ### Rounding to a double -/

theorem roundHalfEven_of_abs_lt (y : ℚ) (m : ℤ) (h : |y - m| < 1 / 2) :
    roundHalfEven y = m := by
  rw [abs_lt] at h
  obtain ⟨h1, h2⟩ := h
  unfold roundHalfEven
  by_cases hm : (m : ℚ) ≤ y
  · have hf : ⌊y⌋ = m := by
      rw [Int.floor_eq_iff]; constructor <;> linarith
    rw [hf, if_pos (by linarith)]
  · have hf : ⌊y⌋ = m - 1 := by
      rw [Int.floor_eq_iff]; push_cast; constructor <;> linarith
    rw [hf]
    push_cast
    rw [if_neg (by linarith), if_pos (by linarith)]
    ring

theorem roundHalfEven_tie (y : ℚ) (m : ℤ) (h : y = m + 1 / 2) (hm : m % 2 = 0) :
    roundHalfEven y = m := by
  have hf : ⌊y⌋ = m := by
    rw [Int.floor_eq_iff]; constructor <;> linarith
  unfold roundHalfEven
  rw [hf, if_neg (by linarith), if_neg (by linarith), if_pos hm]

/-- For a positive `x` in the binade of `2 ^ e`, rounding to a double is
rounding `x / 2 ^ (e - 52)` to an integer. -/
theorem binary64_exponent (x : ℚ) (e : ℤ) (hx : 0 < x)
    (h1 : (2 : ℚ) ^ e ≤ x) (h2 : x < (2 : ℚ) ^ (e + 1)) (he : -1022 ≤ e) :
    binary64 x = (roundHalfEven (x / (2 : ℚ) ^ (e - 52)) : ℚ) * (2 : ℚ) ^ (e - 52) := by
  have hlog : Int.log 2 |x| = e := by
    rw [abs_of_pos hx]
    have ha : e ≤ Int.log 2 x := by
      rw [← Int.zpow_le_iff_le_log (by norm_num) hx]; exact_mod_cast h1
    have hb : Int.log 2 x < e + 1 := by
      rw [← Int.lt_zpow_iff_log_lt (by norm_num) hx]; exact_mod_cast h2
    omega
  unfold binary64
  rw [if_neg (ne_of_gt hx)]
  simp only [hlog, max_eq_left he]

theorem binary64_eq (x : ℚ) (e m : ℤ) (hx : 0 < x)
    (h1 : (2 : ℚ) ^ e ≤ x) (h2 : x < (2 : ℚ) ^ (e + 1)) (he : -1022 ≤ e)
    (hm : |x / (2 : ℚ) ^ (e - 52) - m| < 1 / 2) :
    binary64 x = (m : ℚ) * (2 : ℚ) ^ (e - 52) := by
  rw [binary64_exponent x e hx h1 h2 he, roundHalfEven_of_abs_lt _ m hm]

/-- A check that the double of `x` is `c`: `x` lies in the binade of `2 ^ e`
and is closer than half a spacing to `c = m * 2 ^ (e - 52)`. -/
theorem binary64_value (x c : ℚ) (e m : ℤ) (hx : 0 < x)
    (h1 : (2 : ℚ) ^ e ≤ x) (h2 : x < (2 : ℚ) ^ (e + 1)) (he : -1022 ≤ e)
    (hm : |x / (2 : ℚ) ^ (e - 52) - m| < 1 / 2)
    (hc : (m : ℚ) * (2 : ℚ) ^ (e - 52) = c) :
    binary64 x = c := by
  rw [binary64_eq x e m hx h1 h2 he hm, hc]

/-- A check that the double of `x` is `c` when `x` is half way between two
doubles: the one with the even multiplier `m` is taken. -/
theorem binary64_value_tie (x c : ℚ) (e m : ℤ) (hx : 0 < x)
    (h1 : (2 : ℚ) ^ e ≤ x) (h2 : x < (2 : ℚ) ^ (e + 1)) (he : -1022 ≤ e)
    (hm : x / (2 : ℚ) ^ (e - 52) = m + 1 / 2) (heven : m % 2 = 0)
    (hc : (m : ℚ) * (2 : ℚ) ^ (e - 52) = c) :
    binary64 x = c := by
  rw [binary64_exponent x e hx h1 h2 he, roundHalfEven_tie _ m hm heven, hc]

/-! ### Rounding to a double is monotone and idempotent -/

theorem roundHalfEven_intCast (n : ℤ) : roundHalfEven (n : ℚ) = n := by
  unfold roundHalfEven
  rw [Int.floor_intCast, if_pos (by norm_num)]

theorem roundHalfEven_floor_or (x : ℚ) :
    roundHalfEven x = ⌊x⌋ ∨ roundHalfEven x = ⌊x⌋ + 1 := by
  unfold roundHalfEven
  split_ifs <;> simp

theorem roundHalfEven_mono {x y : ℚ} (h : x ≤ y) : roundHalfEven x ≤ roundHalfEven y := by
  have hf : ⌊x⌋ ≤ ⌊y⌋ := Int.floor_mono h
  rcases lt_or_eq_of_le hf with hlt | heq
  · rcases roundHalfEven_floor_or x with hx | hx <;>
      rcases roundHalfEven_floor_or y with hy | hy <;> omega
  · unfold roundHalfEven
    rw [← heq]
    have hxy : x - ⌊x⌋ ≤ y - ⌊x⌋ := by linarith
    by_cases h1 : x - ⌊x⌋ < 1 / 2
    · rw [if_pos h1]
      split_ifs <;> omega
    · rw [if_neg h1]
      by_cases h2 : 1 / 2 < x - ⌊x⌋
      · rw [if_pos h2, if_neg (by linarith), if_pos (by linarith)]
      · rw [if_neg h2]
        have hx : x - ⌊x⌋ = 1 / 2 := le_antisymm (not_lt.mp h2) (not_lt.mp h1)
        have hy : ¬ (y - ⌊x⌋ < 1 / 2) := by linarith
        rw [if_neg hy]
        by_cases h3 : 1 / 2 < y - ⌊x⌋
        · rw [if_pos h3]; split_ifs <;> omega
        · rw [if_neg h3]

/-- The exponent that `binary64` uses for a positive `x`: at least `-1022`,
with `x` below the next power of two, and with `x` in the binade unless the
exponent is the least one. -/
theorem exponent_spec (x : ℚ) (hx : 0 < x) :
    -1022 ≤ max (Int.log 2 |x|) (-1022) ∧
    x < (2 : ℚ) ^ (max (Int.log 2 |x|) (-1022) + 1) ∧
    ((2 : ℚ) ^ (max (Int.log 2 |x|) (-1022)) ≤ x ∨ max (Int.log 2 |x|) (-1022) = -1022) := by
  rw [abs_of_pos hx]
  have h2 : x < ((2 : ℕ) : ℚ) ^ (Int.log 2 x + 1) := Int.lt_zpow_succ_log_self (by norm_num) x
  have h1 : ((2 : ℕ) : ℚ) ^ (Int.log 2 x) ≤ x := Int.zpow_log_le_self (by norm_num) hx
  norm_num at h1 h2
  refine ⟨le_max_right _ _, ?_, ?_⟩
  · refine lt_of_lt_of_le h2 ?_
    apply zpow_le_zpow_right₀ (by norm_num)
    have := le_max_left (Int.log 2 x) (-1022)
    omega
  · rcases le_total (Int.log 2 x) (-1022) with h | h
    · right; exact max_eq_right h
    · left; rw [max_eq_left h]; exact h1

theorem exponent_unique (x : ℚ) (e : ℤ) (hx : 0 < x) (he : -1022 ≤ e)
    (h2 : x < (2 : ℚ) ^ (e + 1)) (h1 : (2 : ℚ) ^ e ≤ x ∨ e = -1022) :
    max (Int.log 2 |x|) (-1022) = e := by
  rw [abs_of_pos hx]
  have hb : Int.log 2 x < e + 1 := by
    rw [← Int.lt_zpow_iff_log_lt (by norm_num) hx]; exact_mod_cast h2
  rcases h1 with h1 | h1
  · have ha : e ≤ Int.log 2 x := by
      rw [← Int.zpow_le_iff_le_log (by norm_num) hx]; exact_mod_cast h1
    rw [max_eq_left (by omega)]; omega
  · subst h1
    rw [max_eq_right (by omega)]

theorem binary64_of_exponent (x : ℚ) (e : ℤ) (hx : 0 < x) (he : -1022 ≤ e)
    (h2 : x < (2 : ℚ) ^ (e + 1)) (h1 : (2 : ℚ) ^ e ≤ x ∨ e = -1022) :
    binary64 x = (roundHalfEven (x / (2 : ℚ) ^ (e - 52)) : ℚ) * (2 : ℚ) ^ (e - 52) := by
  unfold binary64
  rw [if_neg (ne_of_gt hx)]
  simp only [exponent_unique x e hx he h2 h1]

theorem two_zpow_split (e : ℤ) :
    (2 : ℚ) ^ e = 4503599627370496 * (2 : ℚ) ^ (e - 52) ∧
    (2 : ℚ) ^ (e + 1) = 9007199254740992 * (2 : ℚ) ^ (e - 52) := by
  have h52 : (2 : ℚ) ^ (52 : ℤ) = 4503599627370496 := by norm_num
  have h53 : (2 : ℚ) ^ (53 : ℤ) = 9007199254740992 := by norm_num
  constructor
  · rw [← h52, ← zpow_add₀ (two_ne_zero)]; congr 1; ring
  · rw [← h53, ← zpow_add₀ (two_ne_zero)]; congr 1; ring

/-- The integer multiplier of a rounded positive `x` lies between `0` and
`2 ^ 53`, and is at least `2 ^ 52` when `x` is in the binade of `2 ^ e`. -/
theorem binary64_multiplier_bounds (x : ℚ) (e : ℤ) (hx : 0 < x)
    (h2 : x < (2 : ℚ) ^ (e + 1)) :
    0 ≤ roundHalfEven (x / (2 : ℚ) ^ (e - 52)) ∧
    roundHalfEven (x / (2 : ℚ) ^ (e - 52)) ≤ 9007199254740992 ∧
    ((2 : ℚ) ^ e ≤ x → 4503599627370496 ≤ roundHalfEven (x / (2 : ℚ) ^ (e - 52))) := by
  have hu : (0 : ℚ) < (2 : ℚ) ^ (e - 52) := zpow_pos (by norm_num) _
  obtain ⟨hs1, hs2⟩ := two_zpow_split e
  refine ⟨?_, ?_, ?_⟩
  · have h0 : ((0 : ℤ) : ℚ) ≤ x / (2 : ℚ) ^ (e - 52) := by
      push_cast; exact le_of_lt (div_pos hx hu)
    have := roundHalfEven_mono h0
    rwa [roundHalfEven_intCast] at this
  · have h0 : x / (2 : ℚ) ^ (e - 52) ≤ ((9007199254740992 : ℤ) : ℚ) := by
      push_cast
      rw [div_le_iff₀ hu, ← hs2]; exact le_of_lt h2
    have := roundHalfEven_mono h0
    rwa [roundHalfEven_intCast] at this
  · intro h1
    have h0 : ((4503599627370496 : ℤ) : ℚ) ≤ x / (2 : ℚ) ^ (e - 52) := by
      push_cast
      rw [le_div_iff₀ hu, ← hs1]; exact h1
    have := roundHalfEven_mono h0
    rwa [roundHalfEven_intCast] at this

theorem binary64_nonneg (x : ℚ) (hx : 0 ≤ x) : 0 ≤ binary64 x := by
  rcases eq_or_lt_of_le hx with h | h
  · rw [← h]; unfold binary64; simp
  · obtain ⟨he, h2, h1⟩ := exponent_spec x h
    rw [binary64_of_exponent x _ h he h2 h1]
    have hu : (0 : ℚ) < (2 : ℚ) ^ (max (Int.log 2 |x|) (-1022) - 52) := zpow_pos (by norm_num) _
    have hm := (binary64_multiplier_bounds x _ h h2).1
    have : (0 : ℚ) ≤ (roundHalfEven (x / (2 : ℚ) ^ (max (Int.log 2 |x|) (-1022) - 52)) : ℚ) := by
      exact_mod_cast hm
    positivity

theorem binary64_mono_nonneg {x y : ℚ} (hx : 0 ≤ x) (hxy : x ≤ y) :
    binary64 x ≤ binary64 y := by
  rcases eq_or_lt_of_le hx with h | h
  · rw [← h]
    have : binary64 0 = 0 := by unfold binary64; simp
    rw [this]; exact binary64_nonneg y (le_trans hx hxy)
  · have hy : 0 < y := lt_of_lt_of_le h hxy
    obtain ⟨hex, hx2, hx1⟩ := exponent_spec x h
    obtain ⟨hey, hy2, hy1⟩ := exponent_spec y hy
    generalize max (Int.log 2 |x|) (-1022) = ex at hex hx2 hx1
    generalize max (Int.log 2 |y|) (-1022) = ey at hey hy2 hy1
    rw [binary64_of_exponent x ex h hex hx2 hx1, binary64_of_exponent y ey hy hey hy2 hy1]
    have hux : (0 : ℚ) < (2 : ℚ) ^ (ex - 52) := zpow_pos (by norm_num) _
    have huy : (0 : ℚ) < (2 : ℚ) ^ (ey - 52) := zpow_pos (by norm_num) _
    have hle : ex ≤ ey := by
      rcases hx1 with hx1 | hx1
      · have : (2 : ℚ) ^ ex < (2 : ℚ) ^ (ey + 1) := lt_of_le_of_lt hx1 (lt_of_le_of_lt hxy hy2)
        have := (zpow_lt_zpow_iff_right₀ (by norm_num : (1 : ℚ) < 2)).mp this
        omega
      · omega
    rcases eq_or_lt_of_le hle with heq | hlt
    · subst heq
      have := roundHalfEven_mono (div_le_div_of_nonneg_right hxy (le_of_lt hux))
      have hc : (roundHalfEven (x / (2 : ℚ) ^ (ex - 52)) : ℚ)
          ≤ (roundHalfEven (y / (2 : ℚ) ^ (ex - 52)) : ℚ) := by exact_mod_cast this
      exact mul_le_mul_of_nonneg_right hc (le_of_lt hux)
    · have hy1' : (2 : ℚ) ^ ey ≤ y := by
        rcases hy1 with hy1 | hy1
        · exact hy1
        · omega
      have hmx := (binary64_multiplier_bounds x ex h hx2).2.1
      have hmy := (binary64_multiplier_bounds y ey hy hy2).2.2 hy1'
      have hcx : (roundHalfEven (x / (2 : ℚ) ^ (ex - 52)) : ℚ) ≤ 9007199254740992 := by
        exact_mod_cast hmx
      have hcy : (4503599627370496 : ℚ) ≤ (roundHalfEven (y / (2 : ℚ) ^ (ey - 52)) : ℚ) := by
        exact_mod_cast hmy
      have hpow : (2 : ℚ) ^ (ex + 1) ≤ (2 : ℚ) ^ ey :=
        zpow_le_zpow_right₀ (by norm_num) (by omega)
      calc (roundHalfEven (x / (2 : ℚ) ^ (ex - 52)) : ℚ) * (2 : ℚ) ^ (ex - 52)
          ≤ 9007199254740992 * (2 : ℚ) ^ (ex - 52) :=
            mul_le_mul_of_nonneg_right hcx (le_of_lt hux)
        _ = (2 : ℚ) ^ (ex + 1) := (two_zpow_split ex).2.symm
        _ ≤ (2 : ℚ) ^ ey := hpow
        _ = 4503599627370496 * (2 : ℚ) ^ (ey - 52) := (two_zpow_split ey).1
        _ ≤ (roundHalfEven (y / (2 : ℚ) ^ (ey - 52)) : ℚ) * (2 : ℚ) ^ (ey - 52) :=
            mul_le_mul_of_nonneg_right hcy (le_of_lt huy)

theorem binary64_zero : binary64 0 = 0 := by
  unfold binary64; simp

theorem binary64_idem_nonneg (x : ℚ) (hx : 0 ≤ x) : binary64 (binary64 x) = binary64 x := by
  rcases eq_or_lt_of_le hx with h | h
  · rw [← h, binary64_zero, binary64_zero]
  · obtain ⟨he, h2, h1⟩ := exponent_spec x h
    generalize max (Int.log 2 |x|) (-1022) = e at he h2 h1
    rw [binary64_of_exponent x e h he h2 h1]
    obtain ⟨hm0, hm53, hm52⟩ := binary64_multiplier_bounds x e h h2
    generalize roundHalfEven (x / (2 : ℚ) ^ (e - 52)) = m at hm0 hm53 hm52
    have hu : (0 : ℚ) < (2 : ℚ) ^ (e - 52) := zpow_pos (by norm_num) _
    obtain ⟨hs1, hs2⟩ := two_zpow_split e
    rcases eq_or_lt_of_le hm0 with hz | hpos
    · rw [← hz]; simp [binary64_zero]
    · have hmq : (0 : ℚ) < (m : ℚ) := by exact_mod_cast hpos
      have hy : (0 : ℚ) < (m : ℚ) * (2 : ℚ) ^ (e - 52) := mul_pos hmq hu
      rcases eq_or_lt_of_le hm53 with htop | hlt
      · subst htop
        obtain ⟨ht1, ht2⟩ := two_zpow_split (e + 1)
        have hval : ((9007199254740992 : ℤ) : ℚ) * (2 : ℚ) ^ (e - 52) = (2 : ℚ) ^ (e + 1) := by
          push_cast; exact hs2.symm
        rw [hval]
        have hut : (0 : ℚ) < (2 : ℚ) ^ (e + 1 - 52) := zpow_pos (by norm_num) _
        rw [binary64_of_exponent ((2 : ℚ) ^ (e + 1)) (e + 1) (zpow_pos (by norm_num) _)
          (by omega) (zpow_lt_zpow_right₀ (by norm_num) (by omega)) (Or.inl le_rfl)]
        have hdiv : (2 : ℚ) ^ (e + 1) / (2 : ℚ) ^ (e + 1 - 52) = ((4503599627370496 : ℤ) : ℚ) := by
          rw [div_eq_iff (ne_of_gt hut)]; push_cast; exact ht1
        rw [hdiv, roundHalfEven_intCast]
        push_cast
        exact ht1.symm
      · have hlt' : (m : ℚ) ≤ 9007199254740991 := by
          have : m ≤ 9007199254740991 := by omega
          exact_mod_cast this
        have h2' : (m : ℚ) * (2 : ℚ) ^ (e - 52) < (2 : ℚ) ^ (e + 1) := by
          rw [hs2]
          apply mul_lt_mul_of_pos_right _ hu
          linarith
        have h1' : (2 : ℚ) ^ e ≤ (m : ℚ) * (2 : ℚ) ^ (e - 52) ∨ e = -1022 := by
          rcases h1 with h1 | h1
          · left
            rw [hs1]
            apply mul_le_mul_of_nonneg_right _ (le_of_lt hu)
            exact_mod_cast hm52 h1
          · right; exact h1
        rw [binary64_of_exponent _ e hy he h2' h1', mul_div_assoc,
          div_self (ne_of_gt hu), mul_one, roundHalfEven_intCast]

/-! ### The default nozzle with step `0.01` in double arithmetic -/

/-- The doubles of the sweep at `nozzleDiameter = 0.4`, `step = 0.01`: the
inputs, the bound `0.4 * 1.6 = 0.6400000000000001`, the 63 running sums that
pass the loop condition (the last is `0.6300000000000003`) and the 64th, which
is `0.6400000000000003` and fails it. -/
theorem binary64_sweep_values :
    binary64 0.01 = 5764607523034235 / 576460752303423488 ∧
    binary64 0.4 = 3602879701896397 / 9007199254740992 ∧
    binary64 1.6 = 3602879701896397 / 2251799813685248 ∧
    binary64 (binary64 0.4 * binary64 1.6) = 1441151880758559 / 2251799813685248 ∧
    (List.range 63).map (runningSum binary64 (binary64 0.01)) =
      [5764607523034235 / 576460752303423488,
       5764607523034235 / 288230376151711744,
       1080863910568919 / 36028797018963968,
       5764607523034235 / 144115188075855872,
       3602879701896397 / 72057594037927936,
       8646911284551353 / 144115188075855872,
       1261007895663739 / 18014398509481984,
       5764607523034235 / 72057594037927936,
       3242591731706757 / 36028797018963968,
       7205759403792793 / 72057594037927936,
       990791918021509 / 9007199254740992,
       8646911284551351 / 72057594037927936,
       4683743612465315 / 36028797018963968,
       5044031582654955 / 36028797018963968,
       5404319552844595 / 36028797018963968,
       5764607523034235 / 36028797018963968,
       6124895493223875 / 36028797018963968,
       6485183463413515 / 36028797018963968,
       6845471433603155 / 36028797018963968,
       7205759403792795 / 36028797018963968,
       7566047373982435 / 36028797018963968,
       7926335344172075 / 36028797018963968,
       8286623314361715 / 36028797018963968,
       8646911284551355 / 36028797018963968,
       4503599627370497 / 18014398509481984,
       4683743612465317 / 18014398509481984,
       4863887597560137 / 18014398509481984,
       5044031582654957 / 18014398509481984,
       5224175567749777 / 18014398509481984,
       5404319552844597 / 18014398509481984,
       5584463537939417 / 18014398509481984,
       5764607523034237 / 18014398509481984,
       5944751508129057 / 18014398509481984,
       6124895493223877 / 18014398509481984,
       6305039478318697 / 18014398509481984,
       6485183463413517 / 18014398509481984,
       6665327448508337 / 18014398509481984,
       6845471433603157 / 18014398509481984,
       7025615418697977 / 18014398509481984,
       7205759403792797 / 18014398509481984,
       7385903388887617 / 18014398509481984,
       7566047373982437 / 18014398509481984,
       7746191359077257 / 18014398509481984,
       7926335344172077 / 18014398509481984,
       8106479329266897 / 18014398509481984,
       8286623314361717 / 18014398509481984,
       8466767299456537 / 18014398509481984,
       8646911284551357 / 18014398509481984,
       8827055269646177 / 18014398509481984,
       2251799813685249 / 4503599627370496,
       1148417904979477 / 2251799813685248,
       2341871806232659 / 4503599627370496,
       596726950626591 / 1125899906842624,
       2431943798780069 / 4503599627370496,
       1238489897526887 / 2251799813685248,
       2522015791327479 / 4503599627370496,
       80220368362537 / 140737488355328,
       2612087783874889 / 4503599627370496,
       1328561890074297 / 2251799813685248,
       2702159776422299 / 4503599627370496,
       686798943174001 / 1125899906842624,
       2792231768969709 / 4503599627370496,
       1418633882621707 / 2251799813685248] ∧
    runningSum binary64 (binary64 0.01) 63 = 2882303761517119 / 4503599627370496 ∧
    (∀ k : Nat, k < 63 →
      runningSum binary64 (binary64 0.01) k ≤ binary64 (binary64 0.4 * binary64 1.6)) ∧
    binary64 (binary64 0.4 * binary64 1.6) < runningSum binary64 (binary64 0.01) 63 := by
  have s0 : binary64 0.01 = 5764607523034235 / 576460752303423488 := by
    rw [binary64_eq 0.01 (-7) 5764607523034235 (by norm_num) (by norm_num) (by norm_num)
      (by norm_num) (by norm_num [abs_lt])]
    norm_num
  have d0 : binary64 0.4 = 3602879701896397 / 9007199254740992 := by
    rw [binary64_eq 0.4 (-2) 7205759403792794 (by norm_num) (by norm_num) (by norm_num)
      (by norm_num) (by norm_num [abs_lt])]
    norm_num
  have l0 : binary64 1.6 = 3602879701896397 / 2251799813685248 := by
    rw [binary64_eq 1.6 (0) 7205759403792794 (by norm_num) (by norm_num) (by norm_num)
      (by norm_num) (by norm_num [abs_lt])]
    norm_num
  have b0 : binary64 (binary64 0.4 * binary64 1.6) = 1441151880758559 / 2251799813685248 := by
    rw [d0, l0]
    exact binary64_value _ _ (-1) 5764607523034236 (by norm_num) (by norm_num) (by norm_num)
      (by norm_num) (by norm_num [abs_lt]) (by norm_num)
  have r0 : runningSum binary64 (binary64 0.01) 0 = 5764607523034235 / 576460752303423488 := s0
  have r1 : runningSum binary64 (binary64 0.01) 1 = 5764607523034235 / 288230376151711744 := by
    show binary64 (runningSum binary64 (binary64 0.01) 0 + binary64 0.01) = _
    rw [r0, s0]
    exact binary64_value _ _ (-6) 5764607523034235 (by norm_num) (by norm_num) (by norm_num)
      (by norm_num) (by norm_num [abs_lt]) (by norm_num)
  have r2 : runningSum binary64 (binary64 0.01) 2 = 1080863910568919 / 36028797018963968 := by
    show binary64 (runningSum binary64 (binary64 0.01) 1 + binary64 0.01) = _
    rw [r1, s0]
    exact binary64_value_tie _ _ (-6) 8646911284551352 (by norm_num) (by norm_num) (by norm_num)
      (by norm_num) (by norm_num) (by decide) (by norm_num)
  have r3 : runningSum binary64 (binary64 0.01) 3 = 5764607523034235 / 144115188075855872 := by
    show binary64 (runningSum binary64 (binary64 0.01) 2 + binary64 0.01) = _
    rw [r2, s0]
    exact binary64_value _ _ (-5) 5764607523034235 (by norm_num) (by norm_num) (by norm_num)
      (by norm_num) (by norm_num [abs_lt]) (by norm_num)
  have r4 : runningSum binary64 (binary64 0.01) 4 = 3602879701896397 / 72057594037927936 := by
    show binary64 (runningSum binary64 (binary64 0.01) 3 + binary64 0.01) = _
    rw [r3, s0]
    exact binary64_value _ _ (-5) 7205759403792794 (by norm_num) (by norm_num) (by norm_num)
      (by norm_num) (by norm_num [abs_lt]) (by norm_num)
  have r5 : runningSum binary64 (binary64 0.01) 5 = 8646911284551353 / 144115188075855872 := by
    show binary64 (runningSum binary64 (binary64 0.01) 4 + binary64 0.01) = _
    rw [r4, s0]
    exact binary64_value _ _ (-5) 8646911284551353 (by norm_num) (by norm_num) (by norm_num)
      (by norm_num) (by norm_num [abs_lt]) (by norm_num)
  have r6 : runningSum binary64 (binary64 0.01) 6 = 1261007895663739 / 18014398509481984 := by
    show binary64 (runningSum binary64 (binary64 0.01) 5 + binary64 0.01) = _
    rw [r5, s0]
    exact binary64_value _ _ (-4) 5044031582654956 (by norm_num) (by norm_num) (by norm_num)
      (by norm_num) (by norm_num [abs_lt]) (by norm_num)
  have r7 : runningSum binary64 (binary64 0.01) 7 = 5764607523034235 / 72057594037927936 := by
    show binary64 (runningSum binary64 (binary64 0.01) 6 + binary64 0.01) = _
    rw [r6, s0]
    exact binary64_value _ _ (-4) 5764607523034235 (by norm_num) (by norm_num) (by norm_num)
      (by norm_num) (by norm_num [abs_lt]) (by norm_num)
  have r8 : runningSum binary64 (binary64 0.01) 8 = 3242591731706757 / 36028797018963968 := by
    show binary64 (runningSum binary64 (binary64 0.01) 7 + binary64 0.01) = _
    rw [r7, s0]
    exact binary64_value _ _ (-4) 6485183463413514 (by norm_num) (by norm_num) (by norm_num)
      (by norm_num) (by norm_num [abs_lt]) (by norm_num)
  have r9 : runningSum binary64 (binary64 0.01) 9 = 7205759403792793 / 72057594037927936 := by
    show binary64 (runningSum binary64 (binary64 0.01) 8 + binary64 0.01) = _
    rw [r8, s0]
    exact binary64_value _ _ (-4) 7205759403792793 (by norm_num) (by norm_num) (by norm_num)
      (by norm_num) (by norm_num [abs_lt]) (by norm_num)
  have r10 : runningSum binary64 (binary64 0.01) 10 = 990791918021509 / 9007199254740992 := by
    show binary64 (runningSum binary64 (binary64 0.01) 9 + binary64 0.01) = _
    rw [r9, s0]
    exact binary64_value _ _ (-4) 7926335344172072 (by norm_num) (by norm_num) (by norm_num)
      (by norm_num) (by norm_num [abs_lt]) (by norm_num)
  have r11 : runningSum binary64 (binary64 0.01) 11 = 8646911284551351 / 72057594037927936 := by
    show binary64 (runningSum binary64 (binary64 0.01) 10 + binary64 0.01) = _
    rw [r10, s0]
    exact binary64_value _ _ (-4) 8646911284551351 (by norm_num) (by norm_num) (by norm_num)
      (by norm_num) (by norm_num [abs_lt]) (by norm_num)
  have r12 : runningSum binary64 (binary64 0.01) 12 = 4683743612465315 / 36028797018963968 := by
    show binary64 (runningSum binary64 (binary64 0.01) 11 + binary64 0.01) = _
    rw [r11, s0]
    exact binary64_value _ _ (-3) 4683743612465315 (by norm_num) (by norm_num) (by norm_num)
      (by norm_num) (by norm_num [abs_lt]) (by norm_num)
  have r13 : runningSum binary64 (binary64 0.01) 13 = 5044031582654955 / 36028797018963968 := by
    show binary64 (runningSum binary64 (binary64 0.01) 12 + binary64 0.01) = _
    rw [r12, s0]
    exact binary64_value _ _ (-3) 5044031582654955 (by norm_num) (by norm_num) (by norm_num)
      (by norm_num) (by norm_num [abs_lt]) (by norm_num)
  have r14 : runningSum binary64 (binary64 0.01) 14 = 5404319552844595 / 36028797018963968 := by
    show binary64 (runningSum binary64 (binary64 0.01) 13 + binary64 0.01) = _
    rw [r13, s0]
    exact binary64_value _ _ (-3) 5404319552844595 (by norm_num) (by norm_num) (by norm_num)
      (by norm_num) (by norm_num [abs_lt]) (by norm_num)
  have r15 : runningSum binary64 (binary64 0.01) 15 = 5764607523034235 / 36028797018963968 := by
    show binary64 (runningSum binary64 (binary64 0.01) 14 + binary64 0.01) = _
    rw [r14, s0]
    exact binary64_value _ _ (-3) 5764607523034235 (by norm_num) (by norm_num) (by norm_num)
      (by norm_num) (by norm_num [abs_lt]) (by norm_num)
  have r16 : runningSum binary64 (binary64 0.01) 16 = 6124895493223875 / 36028797018963968 := by
    show binary64 (runningSum binary64 (binary64 0.01) 15 + binary64 0.01) = _
    rw [r15, s0]
    exact binary64_value _ _ (-3) 6124895493223875 (by norm_num) (by norm_num) (by norm_num)
      (by norm_num) (by norm_num [abs_lt]) (by norm_num)
  have r17 : runningSum binary64 (binary64 0.01) 17 = 6485183463413515 / 36028797018963968 := by
    show binary64 (runningSum binary64 (binary64 0.01) 16 + binary64 0.01) = _
    rw [r16, s0]
    exact binary64_value _ _ (-3) 6485183463413515 (by norm_num) (by norm_num) (by norm_num)
      (by norm_num) (by norm_num [abs_lt]) (by norm_num)
  have r18 : runningSum binary64 (binary64 0.01) 18 = 6845471433603155 / 36028797018963968 := by
    show binary64 (runningSum binary64 (binary64 0.01) 17 + binary64 0.01) = _
    rw [r17, s0]
    exact binary64_value _ _ (-3) 6845471433603155 (by norm_num) (by norm_num) (by norm_num)
      (by norm_num) (by norm_num [abs_lt]) (by norm_num)
  have r19 : runningSum binary64 (binary64 0.01) 19 = 7205759403792795 / 36028797018963968 := by
    show binary64 (runningSum binary64 (binary64 0.01) 18 + binary64 0.01) = _
    rw [r18, s0]
    exact binary64_value _ _ (-3) 7205759403792795 (by norm_num) (by norm_num) (by norm_num)
      (by norm_num) (by norm_num [abs_lt]) (by norm_num)
  have r20 : runningSum binary64 (binary64 0.01) 20 = 7566047373982435 / 36028797018963968 := by
    show binary64 (runningSum binary64 (binary64 0.01) 19 + binary64 0.01) = _
    rw [r19, s0]
    exact binary64_value _ _ (-3) 7566047373982435 (by norm_num) (by norm_num) (by norm_num)
      (by norm_num) (by norm_num [abs_lt]) (by norm_num)
  have r21 : runningSum binary64 (binary64 0.01) 21 = 7926335344172075 / 36028797018963968 := by
    show binary64 (runningSum binary64 (binary64 0.01) 20 + binary64 0.01) = _
    rw [r20, s0]
    exact binary64_value _ _ (-3) 7926335344172075 (by norm_num) (by norm_num) (by norm_num)
      (by norm_num) (by norm_num [abs_lt]) (by norm_num)
  have r22 : runningSum binary64 (binary64 0.01) 22 = 8286623314361715 / 36028797018963968 := by
    show binary64 (runningSum binary64 (binary64 0.01) 21 + binary64 0.01) = _
    rw [r21, s0]
    exact binary64_value _ _ (-3) 8286623314361715 (by norm_num) (by norm_num) (by norm_num)
      (by norm_num) (by norm_num [abs_lt]) (by norm_num)
  have r23 : runningSum binary64 (binary64 0.01) 23 = 8646911284551355 / 36028797018963968 := by
    show binary64 (runningSum binary64 (binary64 0.01) 22 + binary64 0.01) = _
    rw [r22, s0]
    exact binary64_value _ _ (-3) 8646911284551355 (by norm_num) (by norm_num) (by norm_num)
      (by norm_num) (by norm_num [abs_lt]) (by norm_num)
  have r24 : runningSum binary64 (binary64 0.01) 24 = 4503599627370497 / 18014398509481984 := by
    show binary64 (runningSum binary64 (binary64 0.01) 23 + binary64 0.01) = _
    rw [r23, s0]
    exact binary64_value _ _ (-2) 4503599627370497 (by norm_num) (by norm_num) (by norm_num)
      (by norm_num) (by norm_num [abs_lt]) (by norm_num)
  have r25 : runningSum binary64 (binary64 0.01) 25 = 4683743612465317 / 18014398509481984 := by
    show binary64 (runningSum binary64 (binary64 0.01) 24 + binary64 0.01) = _
    rw [r24, s0]
    exact binary64_value _ _ (-2) 4683743612465317 (by norm_num) (by norm_num) (by norm_num)
      (by norm_num) (by norm_num [abs_lt]) (by norm_num)
  have r26 : runningSum binary64 (binary64 0.01) 26 = 4863887597560137 / 18014398509481984 := by
    show binary64 (runningSum binary64 (binary64 0.01) 25 + binary64 0.01) = _
    rw [r25, s0]
    exact binary64_value _ _ (-2) 4863887597560137 (by norm_num) (by norm_num) (by norm_num)
      (by norm_num) (by norm_num [abs_lt]) (by norm_num)
  have r27 : runningSum binary64 (binary64 0.01) 27 = 5044031582654957 / 18014398509481984 := by
    show binary64 (runningSum binary64 (binary64 0.01) 26 + binary64 0.01) = _
    rw [r26, s0]
    exact binary64_value _ _ (-2) 5044031582654957 (by norm_num) (by norm_num) (by norm_num)
      (by norm_num) (by norm_num [abs_lt]) (by norm_num)
  have r28 : runningSum binary64 (binary64 0.01) 28 = 5224175567749777 / 18014398509481984 := by
    show binary64 (runningSum binary64 (binary64 0.01) 27 + binary64 0.01) = _
    rw [r27, s0]
    exact binary64_value _ _ (-2) 5224175567749777 (by norm_num) (by norm_num) (by norm_num)
      (by norm_num) (by norm_num [abs_lt]) (by norm_num)
  have r29 : runningSum binary64 (binary64 0.01) 29 = 5404319552844597 / 18014398509481984 := by
    show binary64 (runningSum binary64 (binary64 0.01) 28 + binary64 0.01) = _
    rw [r28, s0]
    exact binary64_value _ _ (-2) 5404319552844597 (by norm_num) (by norm_num) (by norm_num)
      (by norm_num) (by norm_num [abs_lt]) (by norm_num)
  have r30 : runningSum binary64 (binary64 0.01) 30 = 5584463537939417 / 18014398509481984 := by
    show binary64 (runningSum binary64 (binary64 0.01) 29 + binary64 0.01) = _
    rw [r29, s0]
    exact binary64_value _ _ (-2) 5584463537939417 (by norm_num) (by norm_num) (by norm_num)
      (by norm_num) (by norm_num [abs_lt]) (by norm_num)
  have r31 : runningSum binary64 (binary64 0.01) 31 = 5764607523034237 / 18014398509481984 := by
    show binary64 (runningSum binary64 (binary64 0.01) 30 + binary64 0.01) = _
    rw [r30, s0]
    exact binary64_value _ _ (-2) 5764607523034237 (by norm_num) (by norm_num) (by norm_num)
      (by norm_num) (by norm_num [abs_lt]) (by norm_num)
  have r32 : runningSum binary64 (binary64 0.01) 32 = 5944751508129057 / 18014398509481984 := by
    show binary64 (runningSum binary64 (binary64 0.01) 31 + binary64 0.01) = _
    rw [r31, s0]
    exact binary64_value _ _ (-2) 5944751508129057 (by norm_num) (by norm_num) (by norm_num)
      (by norm_num) (by norm_num [abs_lt]) (by norm_num)
  have r33 : runningSum binary64 (binary64 0.01) 33 = 6124895493223877 / 18014398509481984 := by
    show binary64 (runningSum binary64 (binary64 0.01) 32 + binary64 0.01) = _
    rw [r32, s0]
    exact binary64_value _ _ (-2) 6124895493223877 (by norm_num) (by norm_num) (by norm_num)
      (by norm_num) (by norm_num [abs_lt]) (by norm_num)
  have r34 : runningSum binary64 (binary64 0.01) 34 = 6305039478318697 / 18014398509481984 := by
    show binary64 (runningSum binary64 (binary64 0.01) 33 + binary64 0.01) = _
    rw [r33, s0]
    exact binary64_value _ _ (-2) 6305039478318697 (by norm_num) (by norm_num) (by norm_num)
      (by norm_num) (by norm_num [abs_lt]) (by norm_num)
  have r35 : runningSum binary64 (binary64 0.01) 35 = 6485183463413517 / 18014398509481984 := by
    show binary64 (runningSum binary64 (binary64 0.01) 34 + binary64 0.01) = _
    rw [r34, s0]
    exact binary64_value _ _ (-2) 6485183463413517 (by norm_num) (by norm_num) (by norm_num)
      (by norm_num) (by norm_num [abs_lt]) (by norm_num)
  have r36 : runningSum binary64 (binary64 0.01) 36 = 6665327448508337 / 18014398509481984 := by
    show binary64 (runningSum binary64 (binary64 0.01) 35 + binary64 0.01) = _
    rw [r35, s0]
    exact binary64_value _ _ (-2) 6665327448508337 (by norm_num) (by norm_num) (by norm_num)
      (by norm_num) (by norm_num [abs_lt]) (by norm_num)
  have r37 : runningSum binary64 (binary64 0.01) 37 = 6845471433603157 / 18014398509481984 := by
    show binary64 (runningSum binary64 (binary64 0.01) 36 + binary64 0.01) = _
    rw [r36, s0]
    exact binary64_value _ _ (-2) 6845471433603157 (by norm_num) (by norm_num) (by norm_num)
      (by norm_num) (by norm_num [abs_lt]) (by norm_num)
  have r38 : runningSum binary64 (binary64 0.01) 38 = 7025615418697977 / 18014398509481984 := by
    show binary64 (runningSum binary64 (binary64 0.01) 37 + binary64 0.01) = _
    rw [r37, s0]
    exact binary64_value _ _ (-2) 7025615418697977 (by norm_num) (by norm_num) (by norm_num)
      (by norm_num) (by norm_num [abs_lt]) (by norm_num)
  have r39 : runningSum binary64 (binary64 0.01) 39 = 7205759403792797 / 18014398509481984 := by
    show binary64 (runningSum binary64 (binary64 0.01) 38 + binary64 0.01) = _
    rw [r38, s0]
    exact binary64_value _ _ (-2) 7205759403792797 (by norm_num) (by norm_num) (by norm_num)
      (by norm_num) (by norm_num [abs_lt]) (by norm_num)
  have r40 : runningSum binary64 (binary64 0.01) 40 = 7385903388887617 / 18014398509481984 := by
    show binary64 (runningSum binary64 (binary64 0.01) 39 + binary64 0.01) = _
    rw [r39, s0]
    exact binary64_value _ _ (-2) 7385903388887617 (by norm_num) (by norm_num) (by norm_num)
      (by norm_num) (by norm_num [abs_lt]) (by norm_num)
  have r41 : runningSum binary64 (binary64 0.01) 41 = 7566047373982437 / 18014398509481984 := by
    show binary64 (runningSum binary64 (binary64 0.01) 40 + binary64 0.01) = _
    rw [r40, s0]
    exact binary64_value _ _ (-2) 7566047373982437 (by norm_num) (by norm_num) (by norm_num)
      (by norm_num) (by norm_num [abs_lt]) (by norm_num)
  have r42 : runningSum binary64 (binary64 0.01) 42 = 7746191359077257 / 18014398509481984 := by
    show binary64 (runningSum binary64 (binary64 0.01) 41 + binary64 0.01) = _
    rw [r41, s0]
    exact binary64_value _ _ (-2) 7746191359077257 (by norm_num) (by norm_num) (by norm_num)
      (by norm_num) (by norm_num [abs_lt]) (by norm_num)
  have r43 : runningSum binary64 (binary64 0.01) 43 = 7926335344172077 / 18014398509481984 := by
    show binary64 (runningSum binary64 (binary64 0.01) 42 + binary64 0.01) = _
    rw [r42, s0]
    exact binary64_value _ _ (-2) 7926335344172077 (by norm_num) (by norm_num) (by norm_num)
      (by norm_num) (by norm_num [abs_lt]) (by norm_num)
  have r44 : runningSum binary64 (binary64 0.01) 44 = 8106479329266897 / 18014398509481984 := by
    show binary64 (runningSum binary64 (binary64 0.01) 43 + binary64 0.01) = _
    rw [r43, s0]
    exact binary64_value _ _ (-2) 8106479329266897 (by norm_num) (by norm_num) (by norm_num)
      (by norm_num) (by norm_num [abs_lt]) (by norm_num)
  have r45 : runningSum binary64 (binary64 0.01) 45 = 8286623314361717 / 18014398509481984 := by
    show binary64 (runningSum binary64 (binary64 0.01) 44 + binary64 0.01) = _
    rw [r44, s0]
    exact binary64_value _ _ (-2) 8286623314361717 (by norm_num) (by norm_num) (by norm_num)
      (by norm_num) (by norm_num [abs_lt]) (by norm_num)
  have r46 : runningSum binary64 (binary64 0.01) 46 = 8466767299456537 / 18014398509481984 := by
    show binary64 (runningSum binary64 (binary64 0.01) 45 + binary64 0.01) = _
    rw [r45, s0]
    exact binary64_value _ _ (-2) 8466767299456537 (by norm_num) (by norm_num) (by norm_num)
      (by norm_num) (by norm_num [abs_lt]) (by norm_num)
  have r47 : runningSum binary64 (binary64 0.01) 47 = 8646911284551357 / 18014398509481984 := by
    show binary64 (runningSum binary64 (binary64 0.01) 46 + binary64 0.01) = _
    rw [r46, s0]
    exact binary64_value _ _ (-2) 8646911284551357 (by norm_num) (by norm_num) (by norm_num)
      (by norm_num) (by norm_num [abs_lt]) (by norm_num)
  have r48 : runningSum binary64 (binary64 0.01) 48 = 8827055269646177 / 18014398509481984 := by
    show binary64 (runningSum binary64 (binary64 0.01) 47 + binary64 0.01) = _
    rw [r47, s0]
    exact binary64_value _ _ (-2) 8827055269646177 (by norm_num) (by norm_num) (by norm_num)
      (by norm_num) (by norm_num [abs_lt]) (by norm_num)
  have r49 : runningSum binary64 (binary64 0.01) 49 = 2251799813685249 / 4503599627370496 := by
    show binary64 (runningSum binary64 (binary64 0.01) 48 + binary64 0.01) = _
    rw [r48, s0]
    exact binary64_value _ _ (-1) 4503599627370498 (by norm_num) (by norm_num) (by norm_num)
      (by norm_num) (by norm_num [abs_lt]) (by norm_num)
  have r50 : runningSum binary64 (binary64 0.01) 50 = 1148417904979477 / 2251799813685248 := by
    show binary64 (runningSum binary64 (binary64 0.01) 49 + binary64 0.01) = _
    rw [r49, s0]
    exact binary64_value _ _ (-1) 4593671619917908 (by norm_num) (by norm_num) (by norm_num)
      (by norm_num) (by norm_num [abs_lt]) (by norm_num)
  have r51 : runningSum binary64 (binary64 0.01) 51 = 2341871806232659 / 4503599627370496 := by
    show binary64 (runningSum binary64 (binary64 0.01) 50 + binary64 0.01) = _
    rw [r50, s0]
    exact binary64_value _ _ (-1) 4683743612465318 (by norm_num) (by norm_num) (by norm_num)
      (by norm_num) (by norm_num [abs_lt]) (by norm_num)
  have r52 : runningSum binary64 (binary64 0.01) 52 = 596726950626591 / 1125899906842624 := by
    show binary64 (runningSum binary64 (binary64 0.01) 51 + binary64 0.01) = _
    rw [r51, s0]
    exact binary64_value _ _ (-1) 4773815605012728 (by norm_num) (by norm_num) (by norm_num)
      (by norm_num) (by norm_num [abs_lt]) (by norm_num)
  have r53 : runningSum binary64 (binary64 0.01) 53 = 2431943798780069 / 4503599627370496 := by
    show binary64 (runningSum binary64 (binary64 0.01) 52 + binary64 0.01) = _
    rw [r52, s0]
    exact binary64_value _ _ (-1) 4863887597560138 (by norm_num) (by norm_num) (by norm_num)
      (by norm_num) (by norm_num [abs_lt]) (by norm_num)
  have r54 : runningSum binary64 (binary64 0.01) 54 = 1238489897526887 / 2251799813685248 := by
    show binary64 (runningSum binary64 (binary64 0.01) 53 + binary64 0.01) = _
    rw [r53, s0]
    exact binary64_value _ _ (-1) 4953959590107548 (by norm_num) (by norm_num) (by norm_num)
      (by norm_num) (by norm_num [abs_lt]) (by norm_num)
  have r55 : runningSum binary64 (binary64 0.01) 55 = 2522015791327479 / 4503599627370496 := by
    show binary64 (runningSum binary64 (binary64 0.01) 54 + binary64 0.01) = _
    rw [r54, s0]
    exact binary64_value _ _ (-1) 5044031582654958 (by norm_num) (by norm_num) (by norm_num)
      (by norm_num) (by norm_num [abs_lt]) (by norm_num)
  have r56 : runningSum binary64 (binary64 0.01) 56 = 80220368362537 / 140737488355328 := by
    show binary64 (runningSum binary64 (binary64 0.01) 55 + binary64 0.01) = _
    rw [r55, s0]
    exact binary64_value _ _ (-1) 5134103575202368 (by norm_num) (by norm_num) (by norm_num)
      (by norm_num) (by norm_num [abs_lt]) (by norm_num)
  have r57 : runningSum binary64 (binary64 0.01) 57 = 2612087783874889 / 4503599627370496 := by
    show binary64 (runningSum binary64 (binary64 0.01) 56 + binary64 0.01) = _
    rw [r56, s0]
    exact binary64_value _ _ (-1) 5224175567749778 (by norm_num) (by norm_num) (by norm_num)
      (by norm_num) (by norm_num [abs_lt]) (by norm_num)
  have r58 : runningSum binary64 (binary64 0.01) 58 = 1328561890074297 / 2251799813685248 := by
    show binary64 (runningSum binary64 (binary64 0.01) 57 + binary64 0.01) = _
    rw [r57, s0]
    exact binary64_value _ _ (-1) 5314247560297188 (by norm_num) (by norm_num) (by norm_num)
      (by norm_num) (by norm_num [abs_lt]) (by norm_num)
  have r59 : runningSum binary64 (binary64 0.01) 59 = 2702159776422299 / 4503599627370496 := by
    show binary64 (runningSum binary64 (binary64 0.01) 58 + binary64 0.01) = _
    rw [r58, s0]
    exact binary64_value _ _ (-1) 5404319552844598 (by norm_num) (by norm_num) (by norm_num)
      (by norm_num) (by norm_num [abs_lt]) (by norm_num)
  have r60 : runningSum binary64 (binary64 0.01) 60 = 686798943174001 / 1125899906842624 := by
    show binary64 (runningSum binary64 (binary64 0.01) 59 + binary64 0.01) = _
    rw [r59, s0]
    exact binary64_value _ _ (-1) 5494391545392008 (by norm_num) (by norm_num) (by norm_num)
      (by norm_num) (by norm_num [abs_lt]) (by norm_num)
  have r61 : runningSum binary64 (binary64 0.01) 61 = 2792231768969709 / 4503599627370496 := by
    show binary64 (runningSum binary64 (binary64 0.01) 60 + binary64 0.01) = _
    rw [r60, s0]
    exact binary64_value _ _ (-1) 5584463537939418 (by norm_num) (by norm_num) (by norm_num)
      (by norm_num) (by norm_num [abs_lt]) (by norm_num)
  have r62 : runningSum binary64 (binary64 0.01) 62 = 1418633882621707 / 2251799813685248 := by
    show binary64 (runningSum binary64 (binary64 0.01) 61 + binary64 0.01) = _
    rw [r61, s0]
    exact binary64_value _ _ (-1) 5674535530486828 (by norm_num) (by norm_num) (by norm_num)
      (by norm_num) (by norm_num [abs_lt]) (by norm_num)
  have r63 : runningSum binary64 (binary64 0.01) 63 = 2882303761517119 / 4503599627370496 := by
    show binary64 (runningSum binary64 (binary64 0.01) 62 + binary64 0.01) = _
    rw [r62, s0]
    exact binary64_value _ _ (-1) 5764607523034238 (by norm_num) (by norm_num) (by norm_num)
      (by norm_num) (by norm_num [abs_lt]) (by norm_num)
  have hr : List.range 63 = [0, 1, 2, 3, 4, 5, 6, 7, 8, 9, 10, 11, 12, 13, 14, 15, 16, 17, 18, 19, 20, 21, 22, 23, 24, 25, 26, 27, 28, 29, 30, 31, 32, 33, 34, 35, 36, 37, 38, 39, 40, 41, 42, 43, 44, 45, 46, 47, 48, 49, 50, 51, 52, 53, 54, 55, 56, 57, 58, 59, 60, 61, 62] := by
    decide
  refine ⟨s0, d0, l0, b0, ?_, r63, ?_, ?_⟩
  · rw [hr]
    simp only [List.map_cons, List.map_nil,
      r0, r1, r2, r3, r4, r5, r6, r7, r8, r9, r10, r11, r12, r13, r14, r15, r16, r17, r18, r19,
      r20, r21, r22, r23, r24, r25, r26, r27, r28, r29, r30, r31, r32, r33, r34, r35, r36, r37,
      r38, r39, r40, r41, r42, r43, r44, r45, r46, r47, r48, r49, r50, r51, r52, r53, r54, r55,
      r56, r57, r58, r59, r60, r61, r62]
  · intro k hk
    rw [b0]
    interval_cases k
    · rw [r0]; norm_num
    · rw [r1]; norm_num
    · rw [r2]; norm_num
    · rw [r3]; norm_num
    · rw [r4]; norm_num
    · rw [r5]; norm_num
    · rw [r6]; norm_num
    · rw [r7]; norm_num
    · rw [r8]; norm_num
    · rw [r9]; norm_num
    · rw [r10]; norm_num
    · rw [r11]; norm_num
    · rw [r12]; norm_num
    · rw [r13]; norm_num
    · rw [r14]; norm_num
    · rw [r15]; norm_num
    · rw [r16]; norm_num
    · rw [r17]; norm_num
    · rw [r18]; norm_num
    · rw [r19]; norm_num
    · rw [r20]; norm_num
    · rw [r21]; norm_num
    · rw [r22]; norm_num
    · rw [r23]; norm_num
    · rw [r24]; norm_num
    · rw [r25]; norm_num
    · rw [r26]; norm_num
    · rw [r27]; norm_num
    · rw [r28]; norm_num
    · rw [r29]; norm_num
    · rw [r30]; norm_num
    · rw [r31]; norm_num
    · rw [r32]; norm_num
    · rw [r33]; norm_num
    · rw [r34]; norm_num
    · rw [r35]; norm_num
    · rw [r36]; norm_num
    · rw [r37]; norm_num
    · rw [r38]; norm_num
    · rw [r39]; norm_num
    · rw [r40]; norm_num
    · rw [r41]; norm_num
    · rw [r42]; norm_num
    · rw [r43]; norm_num
    · rw [r44]; norm_num
    · rw [r45]; norm_num
    · rw [r46]; norm_num
    · rw [r47]; norm_num
    · rw [r48]; norm_num
    · rw [r49]; norm_num
    · rw [r50]; norm_num
    · rw [r51]; norm_num
    · rw [r52]; norm_num
    · rw [r53]; norm_num
    · rw [r54]; norm_num
    · rw [r55]; norm_num
    · rw [r56]; norm_num
    · rw [r57]; norm_num
    · rw [r58]; norm_num
    · rw [r59]; norm_num
    · rw [r60]; norm_num
    · rw [r61]; norm_num
    · rw [r62]; norm_num
  · rw [b0, r63]; norm_num

/-- C10 as stated fails on the loop as JavaScript runs it. At
`nozzleDiameter = 0.4`, `step = 0.01` the bound `nozzleDiameter * 1.6` is the
double `0.6400000000000001`, the running sums of `i += step` reach
`0.6300000000000003` and then `0.6400000000000003`, which fails the loop
condition: the loop returns 63 values, while `floor(1.6 * nozzleDiameter /
step)` is 64 (for the decimal values and for their doubles alike); the third
value is not `step` above the second, and the sixth is not `6 * step`. -/
theorem layerHeights_sweep_counterexample :
    ∃ heights : List ℚ,
      (∀ fuel : Nat, 64 ≤ fuel →
        layerHeightsRounded binary64 fuel 0.01 0.4 = some heights) ∧
      heights.length = 63 ∧
      ⌊(1.6 : ℚ) * 0.4 / 0.01⌋₊ = 64 ∧
      ⌊(1.6 : ℚ) * binary64 0.4 / binary64 0.01⌋₊ = 64 ∧
      heights.getLast? = some (1418633882621707 / 2251799813685248) ∧
      heights.getD 2 0 - heights.getD 1 0 ≠ binary64 0.01 ∧
      heights.getD 5 0 ≠ 6 * binary64 0.01 := by
  obtain ⟨s0, d0, _, _, hl, _, hle, hgt⟩ := binary64_sweep_values
  refine ⟨(List.range 63).map (runningSum binary64 (binary64 0.01)), ?_, by simp, ?_, ?_,
    ?_, ?_, ?_⟩
  · intro fuel hf
    have h := layerHeightsLoopRounded_run binary64 (binary64 0.01) (binary64 0.4) 63 0 fuel []
      (by intro k hk; rw [Nat.zero_add]; exact hle k hk) (by rw [Nat.zero_add]; exact hgt)
      (by omega)
    unfold layerHeightsRounded
    simp only [Nat.zero_add, List.nil_append] at h
    exact h
  · rw [Nat.floor_eq_iff (by norm_num)]; norm_num
  · rw [d0, s0, Nat.floor_eq_iff (by norm_num)]; norm_num
  · rw [hl]; rfl
  · rw [hl, s0]
    simp only [List.getD_cons_succ, List.getD_cons_zero]
    norm_num
  · rw [hl, s0]
    simp only [List.getD_cons_succ, List.getD_cons_zero]
    norm_num

/-! ### Running sums under a monotone rounding -/

/-- Under a rounding that is monotone and idempotent on non-negative values,
every running sum of a non-negative representable step is at least the step, is
representable, and is at most the next running sum. -/
theorem runningSum_nondecreasing (round : K → K) (step : K)
    (hmono : ∀ x y : K, 0 ≤ x → x ≤ y → round x ≤ round y)
    (hidem : ∀ x : K, 0 ≤ x → round (round x) = round x)
    (hfix : round step = step) (h0 : 0 ≤ step) :
    ∀ k : Nat, step ≤ runningSum round step k ∧
      round (runningSum round step k) = runningSum round step k ∧
      runningSum round step k ≤ runningSum round step (k + 1) := by
  have hnext : ∀ s : K, step ≤ s → round s = s → s ≤ round (s + step) := by
    intro s hs hr
    have := hmono s (s + step) (le_trans h0 hs) (by linarith)
    rwa [hr] at this
  intro k
  induction k with
  | zero => exact ⟨le_refl _, hfix, hnext step (le_refl _) hfix⟩
  | succ k ih =>
    obtain ⟨h1, h2, h3⟩ := ih
    have hs : step ≤ runningSum round step (k + 1) := le_trans h1 h3
    have hr : round (runningSum round step (k + 1)) = runningSum round step (k + 1) :=
      hidem (runningSum round step k + step) (by linarith)
    exact ⟨hs, hr, hnext _ hs hr⟩

/-- A running sum that the next addition leaves unchanged stays unchanged for
ever. -/
theorem runningSum_stuck (round : K → K) (step : K) (k : Nat)
    (h : runningSum round step (k + 1) = runningSum round step k) :
    ∀ j : Nat, runningSum round step (k + j) = runningSum round step k := by
  intro j
  induction j with
  | zero => rfl
  | succ j ih =>
    show round (runningSum round step (k + j) + step) = runningSum round step k
    rw [ih]
    exact h

/-- In a run that exits at index `n`, the running sums up to index `n` are
strictly increasing. -/
theorem runningSum_strict_of_exit (round : K → K) (step bound : K) (n : Nat)
    (hmono : ∀ x y : K, 0 ≤ x → x ≤ y → round x ≤ round y)
    (hidem : ∀ x : K, 0 ≤ x → round (round x) = round x)
    (hfix : round step = step) (h0 : 0 ≤ step)
    (hle : ∀ k : Nat, k < n → runningSum round step k ≤ bound)
    (hgt : bound < runningSum round step n) :
    ∀ i j : Nat, i < j → j ≤ n → runningSum round step i < runningSum round step j := by
  have hstep : ∀ k : Nat, k < n → runningSum round step k < runningSum round step (k + 1) := by
    intro k hk
    have hnd := (runningSum_nondecreasing round step hmono hidem hfix h0 k).2.2
    rcases lt_or_eq_of_le hnd with h | h
    · exact h
    · exfalso
      have hst := runningSum_stuck round step k h.symm (n - k)
      rw [show k + (n - k) = n by omega] at hst
      have := hle k hk
      rw [hst] at hgt
      exact absurd hgt (not_lt.mpr this)
  intro i j hij
  induction j with
  | zero => omega
  | succ j ih =>
    intro hj
    rcases Nat.lt_succ_iff_lt_or_eq.mp hij with h | h
    · exact lt_trans (ih h (by omega)) (hstep j (by omega))
    · subst h; exact hstep i (by omega)

/-! ### The sweep as the code runs it -/

/-- C10, amended: the loop returns the running sums of `i += step`. For any
rounding `round` of the arithmetic (the inputs being the numbers `round step`
and `round nozzleDiameter`), with the bound
`B = round (round nozzleDiameter * round 1.6)`: if the running sum of index `n`
is the first to exceed `B`, the loop exits (given fuel for its `n + 1` tests)
and returns the `n` running sums before it, which start at `round step`, are
each at most `B`, and satisfy `next = round (previous + step)`; when `round` is
monotone and idempotent on non-negative values with `round 0 = 0`, and
`step ≥ 0`, they are each at least `round step` and strictly increasing. If no running sum exceeds `B`, the
loop never exits. Where no operation rounds (`round = id`) and `step > 0`,
`nozzleDiameter > 0`, the result is the list `[step, 2 * step, ..., n * step]`
with `n = floor(1.6 * nozzleDiameter / step)`, every value between `step` and
`1.6 * nozzleDiameter`, consecutive values exactly `step` apart and strictly
increasing. -/
theorem layerHeightsRounded_sweep [FloorRing K] (round : K → K) (step nozzleDiameter : K) :
    (∀ n : Nat,
      (∀ k : Nat, k < n →
        runningSum round (round step) k ≤ round (round nozzleDiameter * round 1.6)) →
      round (round nozzleDiameter * round 1.6) < runningSum round (round step) n →
      ∃ heights : List K,
        (∀ fuel : Nat, n + 1 ≤ fuel →
          layerHeightsRounded round fuel step nozzleDiameter = some heights) ∧
        heights = (List.range n).map (runningSum round (round step)) ∧
        heights.length = n ∧
        (0 < n → heights.head? = some (round step)) ∧
        (∀ v ∈ heights, v ≤ round (round nozzleDiameter * round 1.6)) ∧
        (∀ k : Nat, k + 1 < heights.length →
          heights.getD (k + 1) 0 = round (heights.getD k 0 + round step)) ∧
        ((∀ x y : K, 0 ≤ x → x ≤ y → round x ≤ round y) →
          (∀ x : K, 0 ≤ x → round (round x) = round x) → round 0 = 0 → 0 ≤ step →
          (∀ v ∈ heights, round step ≤ v) ∧ heights.Pairwise (fun a b => a < b))) ∧
    ((∀ k : Nat,
        runningSum round (round step) k ≤ round (round nozzleDiameter * round 1.6)) →
      ∀ fuel : Nat, layerHeightsRounded round fuel step nozzleDiameter = none) ∧
    (0 < step → 0 < nozzleDiameter →
      ∃ heights : List K,
        (∀ fuel : Nat, ⌊1.6 * nozzleDiameter / step⌋₊ + 1 ≤ fuel →
          layerHeightsRounded id fuel step nozzleDiameter = some heights) ∧
        heights = (List.range ⌊1.6 * nozzleDiameter / step⌋₊).map
          (fun k => ((k + 1 : Nat) : K) * step) ∧
        heights.length = ⌊1.6 * nozzleDiameter / step⌋₊ ∧
        (∀ v ∈ heights, step ≤ v ∧ v ≤ 1.6 * nozzleDiameter) ∧
        (∀ k : Nat, k + 1 < heights.length →
          heights.getD (k + 1) 0 - heights.getD k 0 = step) ∧
        heights.Pairwise (fun a b => a < b)) := by
  refine ⟨?_, ?_, ?_⟩
  · intro n hle hgt
    refine ⟨_, ?_, rfl, by simp, ?_, ?_, ?_, ?_⟩
    · intro fuel hf
      have h := layerHeightsLoopRounded_run round (round step) (round nozzleDiameter)
        n 0 fuel [] (by intro k hk; rw [Nat.zero_add]; exact hle k hk)
        (by rw [Nat.zero_add]; exact hgt) hf
      unfold layerHeightsRounded
      simp only [Nat.zero_add, List.nil_append] at h
      exact h
    · intro hn
      obtain ⟨m, rfl⟩ : ∃ m, n = m + 1 := ⟨n - 1, by omega⟩
      rw [List.range_succ_eq_map, List.map_cons]
      rfl
    · intro v hv
      rw [List.mem_map] at hv
      obtain ⟨k, hk, rfl⟩ := hv
      exact hle k (List.mem_range.mp hk)
    · intro k hk
      simp only [List.length_map, List.length_range] at hk
      rw [List.getD_eq_getElem _ _ (by simpa using hk),
        List.getD_eq_getElem _ _ (by simp; omega)]
      simp only [List.getElem_map, List.getElem_range]
      rfl
    · intro hmono hidem hzero h0
      have hr0 : 0 ≤ round step := by
        have h00 := hmono 0 step (le_refl 0) h0
        rwa [hzero] at h00
      have hfix : round (round step) = round step := hidem step h0
      constructor
      · intro v hv
        rw [List.mem_map] at hv
        obtain ⟨k, _, rfl⟩ := hv
        exact (runningSum_nondecreasing round (round step) hmono hidem hfix hr0 k).1
      · rw [List.pairwise_map]
        refine List.Pairwise.imp_of_mem ?_ (List.pairwise_lt_range n)
        intro a b _ hb hab
        exact runningSum_strict_of_exit round (round step) _ n hmono hidem hfix hr0 hle hgt
          a b hab (le_of_lt (List.mem_range.mp hb))
  · intro hall fuel
    exact layerHeightsLoopRounded_diverges round (round step) (round nozzleDiameter) hall fuel 0 []
  · intro hstep hd
    have hid : ∀ fuel : Nat, layerHeightsRounded id fuel step nozzleDiameter
        = layerHeights fuel step nozzleDiameter := fun fuel =>
      layerHeightsLoopRounded_id step nozzleDiameter fuel step []
    obtain ⟨heights, h1, h2⟩ := layerHeights_sweep step nozzleDiameter hstep hd
    exact ⟨heights, fun fuel hf => by rw [hid]; exact h1 fuel hf, h2⟩

/-- Witness of C10 (amended) in double arithmetic: at `nozzleDiameter = 0.4`,
`step = 0.01` the running sum of index 63 is the first to exceed the bound, and
the loop returns the 63 running sums before it, strictly increasing from the
double of `0.01`. -/
theorem layerHeightsRounded_sweep_witness :
    ∃ heights : List ℚ,
      (∀ fuel : Nat, 63 + 1 ≤ fuel →
        layerHeightsRounded binary64 fuel 0.01 0.4 = some heights) ∧
      heights.length = 63 ∧
      (∀ v ∈ heights, v ≤ binary64 (binary64 0.4 * binary64 1.6)) ∧
      (∀ v ∈ heights, binary64 0.01 ≤ v) ∧
      heights.Pairwise (fun a b => a < b) :=
  have h := (layerHeightsRounded_sweep binary64 0.01 0.4).1 63
    binary64_sweep_values.2.2.2.2.2.2.1 binary64_sweep_values.2.2.2.2.2.2.2
  h.elim fun heights hh =>
    ⟨heights, hh.1, hh.2.2.1, hh.2.2.2.2.1,
      (hh.2.2.2.2.2.2 (fun _ _ hx hxy => binary64_mono_nonneg hx hxy)
        binary64_idem_nonneg binary64_zero (by norm_num)).1,
      (hh.2.2.2.2.2.2 (fun _ _ hx hxy => binary64_mono_nonneg hx hxy)
        binary64_idem_nonneg binary64_zero (by norm_num)).2⟩

end Theorems

end LineWidth
